import Mathlib

/-!
Verification of the browrec execution and self-healing engine.

This file gives a shallow embedding, in Lean 4, of the pure logic of the
engine: URL guard/effect matching (src/core/step-validation.ts), the
Phase-2 step-splice (src/commands/run.ts, applyPhase2Replacements),
template resolution (src/core/template-vars.ts), the execution-plan
builder (src/core/execution-plan.ts), the HTTP fetch request construction
(src/commands/run.ts, runHttpStepResult), the download filename
resolution (src/commands/run.ts), and the self-healing step runner
(src/commands/run.ts, runPlanStepsWithHeal).

Effectful collaborators (the live browser page, the HTTP client, the
secret vault, the prompt runner, the low-level event capture) are
abstracted as explicit oracle parameters; everything else is translated
directly from the TypeScript source.  JavaScript-specific behaviour
(string truthiness, `??`, `Array.prototype.splice`, regular-expression
scanning) is reproduced explicitly and noted at each definition.
-/

namespace Browrec

instance {ε α : Type} [DecidableEq ε] [DecidableEq α] : DecidableEq (Except ε α) := fun x y =>
  match x, y with
  | .ok a, .ok b =>
    if h : a = b then isTrue (by rw [h]) else isFalse (fun hh => by cases hh; exact h rfl)
  | .error a, .error b =>
    if h : a = b then isTrue (by rw [h]) else isFalse (fun hh => by cases hh; exact h rfl)
  | .ok _, .error _ => isFalse (fun hh => by cases hh)
  | .error _, .ok _ => isFalse (fun hh => by cases hh)

/-! ## JS string primitives

The JavaScript string methods the source uses, modelled over the
character list of the Lean string (all structurally recursive, so they
evaluate inside the kernel). -/

/-- `String.prototype.trim`. -/
def jsTrim (s : String) : String :=
  String.mk (((s.toList.dropWhile Char.isWhitespace).reverse.dropWhile
    Char.isWhitespace).reverse)

/-- `String.prototype.toUpperCase` (ASCII, which is all the engine feeds it). -/
def jsToUpper (s : String) : String :=
  String.mk (s.toList.map Char.toUpper)

/-- `String.prototype.toLowerCase` (ASCII). -/
def jsToLower (s : String) : String :=
  String.mk (s.toList.map Char.toLower)

/-- `String.prototype.startsWith`. -/
def jsStartsWith (s pre : String) : Bool :=
  pre.toList.isPrefixOf s.toList

/-- `String.prototype.endsWith`. -/
def jsEndsWith (s suf : String) : Bool :=
  suf.toList.reverse.isPrefixOf s.toList.reverse

/-- `String.prototype.slice(0, -1)`. -/
def strDropLast1 (s : String) : String :=
  String.mk s.toList.dropLast

/-- The value of `Number` on a plain digit run. -/
def digitsToNat (cs : List Char) : Nat :=
  cs.foldl (fun a c => a * 10 + (c.toNat - '0'.toNat)) 0

def splitOnCharAux (sep : Char) : List Char → List (List Char)
  | [] => [[]]
  | c :: rest =>
    if c = sep then [] :: splitOnCharAux sep rest
    else
      match splitOnCharAux sep rest with
      | [] => [[c]]
      | l :: ls => (c :: l) :: ls

/-- `String.prototype.split` on a one-character separator. -/
def splitOnChar (sep : Char) (s : String) : List String :=
  (splitOnCharAux sep s.toList).map String.mk

/-- Code-point comparison of strings; models `localeCompare`'s order on the
ASCII identifiers and URLs the engine handles. -/
def listCharLe : List Char → List Char → Bool
  | a :: as2, b :: bs =>
    if a < b then true
    else if b < a then false
    else listCharLe as2 bs
  | [], _ => true
  | _, _ => false

def strLeB (a b : String) : Bool :=
  listCharLe a.toList b.toList

/-! ## Data model (src/types.ts) -/

inductive GuardType
  | url_is
  | url_not
  | text_visible
deriving DecidableEq, Repr

/-- `Guard.type` rendered as the literal string of the TS tagged union. -/
def GuardType.asString : GuardType → String
  | .url_is => "url_is"
  | .url_not => "url_not"
  | .text_visible => "text_visible"

inductive EffectType
  | url_changed
  | text_visible
  | min_items
deriving DecidableEq, Repr

def EffectType.asString : EffectType → String
  | .url_changed => "url_changed"
  | .text_visible => "text_visible"
  | .min_items => "min_items"

structure Guard where
  type : GuardType
  value : String
deriving DecidableEq, Repr

structure Effect where
  type : EffectType
  value : String
deriving DecidableEq, Repr

inductive StepMode
  | http
  | pw
deriving DecidableEq, Repr

inductive StepAction
  | goto
  | click
  | fill
  | press
  | fetch
  | extract
  | ensure_login
deriving DecidableEq, Repr

/-- `RecipeStep` from src/types.ts.  Optional TS fields become `Option`;
`headers` is a JS object modelled as an association list. -/
structure RecipeStep where
  id : String
  title : String
  mode : StepMode
  action : StepAction
  url : Option String := none
  selectorVariants : Option (List String) := none
  value : Option String := none
  key : Option String := none
  method : Option String := none
  headers : Option (List (String × String)) := none
  body : Option String := none
  download : Option Bool := none
  guards : Option (List Guard) := none
  effects : Option (List Effect) := none
deriving DecidableEq, Repr

/-! ## Step validation (src/core/step-validation.ts) -/

/-- A live browser page, abstracted to the two observations the validator
makes of it: whether a text becomes visible within a timeout (ms) and how
many elements a locator resolves to (`none` models a thrown locator
error). -/
structure PageOracle where
  textVisible : String → Nat → Bool
  locatorCount : String → Option Nat

structure GuardContext where
  currentUrl : Option String := none
  page : Option PageOracle := none

structure EffectContext where
  beforeUrl : Option String := none
  currentUrl : Option String := none
  page : Option PageOracle := none

/-- `matchesUrl` from step-validation.ts: wildcard-suffix patterns match by
prefix on the pattern with the `*` stripped, others by exact equality. -/
def matchesUrl (pattern currentUrl : String) : Bool :=
  if jsEndsWith pattern "*" then jsStartsWith currentUrl (strDropLast1 pattern)
  else currentUrl == pattern

/-- `evaluateGuard`.  JS truthiness: an empty `currentUrl` string is falsy,
so URL guards are vacuously satisfied on it, as on `undefined`. -/
def evaluateGuard (guard : Guard) (context : GuardContext) : Bool :=
  match guard.type with
  | .url_is =>
    match context.currentUrl with
    | some u => if u.isEmpty then true else matchesUrl guard.value u
    | none => true
  | .url_not =>
    match context.currentUrl with
    | some u => if u.isEmpty then true else !matchesUrl guard.value u
    | none => true
  | .text_visible =>
    match context.page with
    | some p => p.textVisible guard.value 1200
    | none => true

/-- `parseMinItems`: splits `selector|count`; JS `split` destructuring takes
the first two fragments.  `Number(rawCount)` is modelled for the integer
literals the compiler emits; a non-integer or negative count yields
`none`, as in the source. -/
def parseMinItems (value : String) : Option (String × Nat) :=
  match splitOnChar '|' value with
  | selector :: rawCount :: _ =>
    if selector.isEmpty || rawCount.isEmpty then none
    else if rawCount.toList.all Char.isDigit then
      some (selector, digitsToNat rawCount.toList)
    else none
  | _ => none

/-- `evaluateEffect`.  `url_changed` with a (truthy) expected value compares
by exact string equality only; with a falsy value it requires the URL to
differ from `beforeUrl` (`undefined !== s` is true in JS, hence `Option`
inequality). -/
def evaluateEffect (effect : Effect) (context : EffectContext) : Bool :=
  match effect.type with
  | .url_changed =>
    match context.currentUrl with
    | none => true
    | some u =>
      if u.isEmpty then true
      else if !effect.value.isEmpty then u == effect.value
      else context.beforeUrl != some u
  | .text_visible =>
    match context.page with
    | some p => p.textVisible effect.value 2000
    | none => true
  | .min_items =>
    match context.page with
    | none => true
    | some p =>
      match parseMinItems effect.value with
      | none => true
      | some (selector, count) =>
        match p.locatorCount selector with
        | some c => decide (count ≤ c)
        | none => false

inductive ValidationKind
  | guard_failed
  | effect_failed
deriving DecidableEq, Repr

structure StepValidationError where
  kind : ValidationKind
  stepId : String
  checkType : String
  value : String
deriving DecidableEq, Repr

def formatStepValidationError (error : StepValidationError) : String :=
  match error.kind with
  | .guard_failed =>
    "Guard failed: " ++ error.checkType ++ "=" ++ error.value ++ " (step=" ++ error.stepId ++ ")"
  | .effect_failed =>
    "Effect failed: " ++ error.checkType ++ "=" ++ error.value ++ " (step=" ++ error.stepId ++ ")"

def guardFailed (step : RecipeStep) (guard : Guard) : StepValidationError :=
  { kind := .guard_failed, stepId := step.id, checkType := guard.type.asString, value := guard.value }

def effectFailed (step : RecipeStep) (effect : Effect) : StepValidationError :=
  { kind := .effect_failed, stepId := step.id, checkType := effect.type.asString, value := effect.value }

def validateGuardsList (step : RecipeStep) (context : GuardContext) :
    List Guard → Except StepValidationError Unit
  | [] => .ok ()
  | g :: rest =>
    if evaluateGuard g context then validateGuardsList step context rest
    else .error (guardFailed step g)

/-- `validateGuards`: first failing guard short-circuits.  `step.guards ?? []`. -/
def validateGuards (step : RecipeStep) (context : GuardContext) :
    Except StepValidationError Unit :=
  validateGuardsList step context (step.guards.getD [])

def validateEffectsList (step : RecipeStep) (context : EffectContext) :
    List Effect → Except StepValidationError Unit
  | [] => .ok ()
  | e :: rest =>
    if evaluateEffect e context then validateEffectsList step context rest
    else .error (effectFailed step e)

def validateEffects (step : RecipeStep) (context : EffectContext) :
    Except StepValidationError Unit :=
  validateEffectsList step context (step.effects.getD [])

/-! ## URL hostname (platform model) and HTTP guard relaxation
    (src/commands/run.ts) -/

/-- Modelled from the platform: WHATWG `new URL(u).hostname`, restricted to
the `scheme://[userinfo@]host[:port][/path][?query][#fragment]` shape the
engine actually handles.  Parse failure (the constructor throwing) is
`none`.  The host is lower-cased; the port, when present, must be digits. -/
def splitSchemeRest : List Char → Option (List Char × List Char)
  | [] => none
  | ':' :: '/' :: '/' :: rest => some ([], rest)
  | c :: rest =>
    match splitSchemeRest rest with
    | some (s, r) => some (c :: s, r)
    | none => none

def isSchemeChar (c : Char) : Bool :=
  c.isAlpha || c.isDigit || c == '+' || c == '-' || c == '.'

def urlHostname (u : String) : Option String :=
  match splitSchemeRest u.toList with
  | none => none
  | some (scheme, rest) =>
    if scheme.isEmpty then none
    else if !(scheme.all isSchemeChar) then none
    else if !(scheme.headD 'a').isAlpha then none
    else
      let authority := rest.takeWhile (fun c => c != '/' && c != '?' && c != '#')
      let hostport := (authority.reverse.takeWhile (· != '@')).reverse
      let host := hostport.takeWhile (· != ':')
      let port := hostport.drop (host.length + 1)
      if host.isEmpty then none
      else if hostport.length > host.length && !(port.all Char.isDigit) then none
      else some (String.mk (host.map Char.toLower))

/-- `extractHostnameForGuardUrl`: strips the trailing `*`s of a wildcard
guard pattern, then parses the hostname. -/
def dropTrailingStars (s : String) : String :=
  String.mk ((s.toList.reverse.dropWhile (· == '*')).reverse)

def extractHostnameForGuardUrl (guardValue : String) : Option String :=
  urlHostname (dropTrailingStars guardValue)

def parseHostname (url : String) : Option String :=
  urlHostname url

/-- `guardHostnameMatches`: `Boolean(expected && actual && expected === actual)`
(an empty hostname string would be falsy). -/
def guardHostnameMatches (guardValue currentUrl : String) : Bool :=
  match extractHostnameForGuardUrl guardValue, parseHostname currentUrl with
  | some e, some a => !e.isEmpty && !a.isEmpty && e == a
  | _, _ => false

/-- `canSkipGuardForHttp`: with no current URL never skip; otherwise skip
iff some `url_is` guard's hostname equals the current URL's hostname. -/
def canSkipGuardForHttp (step : RecipeStep) (currentUrl : Option String) : Bool :=
  match currentUrl with
  | none => false
  | some u =>
    if u.isEmpty then false
    else (step.guards.getD []).any (fun g => g.type == GuardType.url_is && guardHostnameMatches g.value u)

/-! ## Run errors (src/commands/run.ts, RunExecuteError) -/

inductive RunExecuteError
  | context_unavailable (stepId message : String)
  | step_execution_failed (stepId message : String)
  | heal_record_failed (stepId message : String)
  | re_record_failed (stepId reRecordedStepId message : String)
  | unexpected_error (phase message : String)
deriving DecidableEq, Repr

/-- The `.message` field every variant of the TS union carries. -/
def RunExecuteError.message : RunExecuteError → String
  | .context_unavailable _ m => m
  | .step_execution_failed _ m => m
  | .heal_record_failed _ m => m
  | .re_record_failed _ _ m => m
  | .unexpected_error _ m => m

def stepExecutionError (stepId message : String) : RunExecuteError :=
  .step_execution_failed stepId message

/-- The guard phase of `runHttpStepResult` (run.ts lines 465-472): a guard
failure is forgiven when healing is on and `canSkipGuardForHttp` holds,
otherwise it propagates as a step failure. -/
def httpGuardPhase (step : RecipeStep) (guardUrl : Option String) (heal : Bool) :
    Except RunExecuteError Unit :=
  match validateGuards step { currentUrl := guardUrl, page := none } with
  | .ok _ => .ok ()
  | .error e =>
    if heal && canSkipGuardForHttp step guardUrl then .ok ()
    else .error (stepExecutionError step.id (formatStepValidationError e))

/-! ## Phase-2 replacement splice (src/commands/run.ts, applyPhase2Replacements) -/

structure Phase2Replacement where
  replacedFromStepId : String
  newSteps : List RecipeStep
deriving DecidableEq, Repr

/-- `applyPhase2Replacements`: for each replacement, find the first step
with the replaced id and splice the new steps in its place
(`splice(idx, 1, ...newSteps)`); an absent id is skipped. -/
def applyPhase2Replacements (baseSteps : List RecipeStep)
    (replacements : List Phase2Replacement) : List RecipeStep :=
  replacements.foldl
    (fun mergedSteps replacement =>
      match mergedSteps.findIdx? (fun s => s.id == replacement.replacedFromStepId) with
      | none => mergedSteps
      | some idx => mergedSteps.take idx ++ replacement.newSteps ++ mergedSteps.drop (idx + 1))
    baseSteps

/-! ## Template resolution (src/core/template-vars.ts) -/

/-- A JS `Date`, abstracted to what the template resolver observes of it:
the local calendar date (`getFullYear`, zero-based `getMonth`, `getDate`)
and the `toISOString()` rendering of the instant (a platform value carried
along as data). -/
structure JsDate where
  year : Int
  monthIndex : Nat
  day : Nat
  isoString : String := ""
deriving DecidableEq, Repr

/-- Days since 1970-01-01 of a civil date (month `m` is 1-based).  Standard
civil-from-days arithmetic; models the day count underlying JS
`Date.prototype.setDate`. -/
def daysFromCivil (y : Int) (m : Nat) (d : Nat) : Int :=
  let y2 : Int := if m ≤ 2 then y - 1 else y
  let era : Int := (if 0 ≤ y2 then y2 else y2 - 399) / 400
  let yoe : Int := y2 - era * 400
  let mp : Int := if 2 < m then (m : Int) - 3 else (m : Int) + 9
  let doy : Int := (153 * mp + 2) / 5 + (d : Int) - 1
  let doe : Int := yoe * 365 + yoe / 4 - yoe / 100 + doy
  era * 146097 + doe - 719468

/-- Inverse of `daysFromCivil`: the civil date (year, 1-based month, day)
of a day count. -/
def civilFromDays (z0 : Int) : Int × Nat × Nat :=
  let z : Int := z0 + 719468
  let era : Int := (if 0 ≤ z then z else z - 146096) / 146097
  let doe : Int := z - era * 146097
  let yoe : Int := (doe - doe / 1460 + doe / 36524 - doe / 146096) / 365
  let y : Int := yoe + era * 400
  let doy : Int := doe - (365 * yoe + yoe / 4 - yoe / 100)
  let mp : Int := (5 * doy + 2) / 153
  let d : Int := doy - (153 * mp + 2) / 5 + 1
  let m : Int := if mp < 10 then mp + 3 else mp - 9
  (if m ≤ 2 then y + 1 else y, m.toNat, d.toNat)

/-- `date.setDate(date.getDate() + offset)`: shift a local calendar date by
whole days, with month/year rollover. -/
def jsDateAddDays (dt : JsDate) (offset : Int) : JsDate :=
  let z := daysFromCivil dt.year (dt.monthIndex + 1) dt.day + offset
  let c := civilFromDays z
  { year := c.1, monthIndex := c.2.1 - 1, day := c.2.2, isoString := "" }

inductive TemplateVarError
  | invalid_day_offset (rawOffset : String)
  | unknown_template_variable (token : String)
  | invalid_cli_var_format (item : String)
  | invalid_cli_var_key (item : String)
deriving DecidableEq, Repr

def formatTemplateVarError : TemplateVarError → String
  | .invalid_day_offset rawOffset => "Invalid day offset: " ++ rawOffset
  | .unknown_template_variable token => "Unknown template variable: " ++ token
  | .invalid_cli_var_format item => "Invalid --var format: " ++ item ++ ". Use --var key=value"
  | .invalid_cli_var_key item => "Invalid --var key in: " ++ item

/-- A JS object `Record<string, string>`: an insertion-ordered association
list.  Lookup returns the first binding; update overwrites in place or
appends. -/
def StrMap := List (String × String)
deriving instance DecidableEq, Repr, BEq for StrMap

def strMapGet (m : StrMap) (k : String) : Option String :=
  match m with
  | [] => none
  | (k2, v) :: rest => if k2 == k then some v else strMapGet rest k

def strMapSet (m : StrMap) (k v : String) : StrMap :=
  match m with
  | [] => [(k, v)]
  | (k2, v2) :: rest => if k2 == k then (k2, v) :: rest else (k2, v2) :: strMapSet rest k v

structure TemplateContext where
  vars : StrMap := []
  now : JsDate

/-- `TODAY_PATTERN = /^today([+-]\d+d)?$/`: `some none` for a bare `today`,
`some (some raw)` with the raw captured offset (sign, digits, `d`). -/
def parseTodayToken (token : String) : Option (Option String) :=
  match token.toList with
  | 't' :: 'o' :: 'd' :: 'a' :: 'y' :: rest =>
    match rest with
    | [] => some none
    | s :: ds =>
      if (s == '+' || s == '-') &&
          ds.length ≥ 2 &&
          (ds.dropLast).all Char.isDigit &&
          !(ds.dropLast).isEmpty &&
          ds.getLastD 'x' == 'd' then
        some (some (String.mk (s :: ds)))
      else none
  | _ => none

/-- `pad`: `String(value).padStart(2, "0")`. -/
def pad2 (value : Nat) : String :=
  let s := toString value
  if s.length < 2 then "0" ++ s else s

/-- `formatDate`: `${y}-${pad(m+1)}-${pad(d)}` on the local calendar date. -/
def formatDate (date : JsDate) : String :=
  toString date.year ++ "-" ++ pad2 (date.monthIndex + 1) ++ "-" ++ pad2 date.day

/-- `applyDayOffsetResult`: sign from a leading `-`, magnitude from
`Number(rawOffset.slice(1, -1))`; non-numeric is `invalid_day_offset`
(unreachable through `TODAY_PATTERN`, kept as in the source). -/
def applyDayOffsetResult (base : JsDate) (rawOffset : Option String) :
    Except TemplateVarError JsDate :=
  match rawOffset with
  | none => .ok base
  | some raw =>
    let sign : Int := if jsStartsWith raw "-" then -1 else 1
    let digits := (raw.toList.drop 1).dropLast
    if digits.all Char.isDigit && !digits.isEmpty then
      .ok (jsDateAddDays base (sign * (digitsToNat digits : Int)))
    else .error (.invalid_day_offset raw)

/-- `resolveTokenResult`: supplied vars first, then the `now` instant, then
`today`/`today±Nd` from the local-midnight base. -/
def resolveTokenResult (token : String) (context : TemplateContext) :
    Except TemplateVarError String :=
  match strMapGet context.vars token with
  | some v => .ok v
  | none =>
    if token == "now" then .ok context.now.isoString
    else
      match parseTodayToken token with
      | some rawOffset =>
        let base : JsDate :=
          { year := context.now.year, monthIndex := context.now.monthIndex,
            day := context.now.day, isoString := "" }
        (applyDayOffsetResult base rawOffset).map formatDate
      | none => .error (.unknown_template_variable token)

def isBuiltinTemplateToken (token : String) : Bool :=
  token == "now" || (parseTodayToken token).isSome

/-! The scanner for `TEMPLATE_PATTERN = /{{\s*([^{}]+?)\s*}}/g`.  A match
begins at a literal `\x7b\x7b`; the lazy body is the (nonempty, brace-free)
run of characters up to the first `\x7d\x7d`; when no such closing exists
before a brace, the scan advances one character, as the regex engine does.
The captured group is the body with surrounding whitespace stripped, which
the source then `.trim()`s — so the token is the trimmed body. -/

/-- Scan the inside of a candidate `\x7b\x7b...\x7d\x7d` occurrence: returns
the brace-free body and the remainder after the closing braces. -/
def scanTemplateBody : List Char → Option (List Char × List Char)
  | [] => none
  | c :: cs =>
    if c = '}' then
      match cs with
      | c2 :: rest => if c2 = '}' then some ([], rest) else none
      | [] => none
    else if c = '{' then none
    else
      match scanTemplateBody cs with
      | some (m, rest) => some (c :: m, rest)
      | none => none

inductive TemplateSeg
  | lit (c : Char)
  | tok (body : List Char)
deriving DecidableEq, Repr

def TemplateSeg.isLit : TemplateSeg → Bool
  | .lit _ => true
  | .tok _ => false

/-- The characters a segment stands for in the original string. -/
def segChars : TemplateSeg → List Char
  | .lit c => [c]
  | .tok body => '{' :: '{' :: (body ++ ['}', '}'])

/-- Fuel-indexed segmentation; each step consumes at least one character,
so `fuel = cs.length` is exact (see `templateSegments`).  A match needs
`\x7b\x7b`, a nonempty brace-free body and `\x7d\x7d`; on no match at a
position the scan advances one character, as the regex engine does. -/
def templateSegmentsFuel : Nat → List Char → List TemplateSeg
  | 0, cs => cs.map .lit
  | _ + 1, [] => []
  | fuel + 1, c :: rest =>
    if c = '{' then
      match rest with
      | c2 :: rest2 =>
        if c2 = '{' then
          match scanTemplateBody rest2 with
          | some (body, rem) =>
            if body.isEmpty then .lit c :: templateSegmentsFuel fuel rest
            else .tok body :: templateSegmentsFuel fuel rem
          | none => .lit c :: templateSegmentsFuel fuel rest
        else .lit c :: templateSegmentsFuel fuel rest
      | [] => .lit c :: templateSegmentsFuel fuel rest
    else .lit c :: templateSegmentsFuel fuel rest

def templateSegments (cs : List Char) : List TemplateSeg :=
  templateSegmentsFuel cs.length cs

/-- The `Set`-insertion step of `listTemplateTokens`. -/
def tokAccum (acc : List String) (seg : TemplateSeg) : List String :=
  match seg with
  | .lit _ => acc
  | .tok body =>
    let t := jsTrim (String.mk body)
    if acc.contains t then acc else acc ++ [t]

/-- `listTemplateTokens`: the trimmed tokens of every match, deduplicated in
first-occurrence order (a JS `Set`). -/
def listTemplateTokens (value : String) : List String :=
  (templateSegments value.toList).foldl tokAccum []

def resolveSegs (context : TemplateContext) : List TemplateSeg → Except TemplateVarError String
  | [] => .ok ""
  | .lit c :: rest =>
    match resolveSegs context rest with
    | .error e => .error e
    | .ok s => .ok (String.mk [c] ++ s)
  | .tok body :: rest =>
    match resolveTokenResult (jsTrim (String.mk body)) context with
    | .error e => .error e
    | .ok v =>
      match resolveSegs context rest with
      | .error e => .error e
      | .ok s => .ok (v ++ s)

/-- `resolveTemplateStringResult`: substitute every match left to right,
failing on the first unresolvable token. -/
def resolveTemplateStringResult (value : String) (context : TemplateContext) :
    Except TemplateVarError String :=
  resolveSegs context (templateSegments value.toList)

/-! ## Per-step template substitution (resolveRecipeStepTemplatesResult) -/

/-- The `step.url ? resolve(step.url) : ok(step.url)` shape: a missing or
empty (falsy) URL is passed through untouched. -/
def resolveIfTruthy (v : Option String) (context : TemplateContext) :
    Except TemplateVarError (Option String) :=
  match v with
  | none => .ok none
  | some s =>
    if s.isEmpty then .ok (some s)
    else (resolveTemplateStringResult s context).map some

/-- The `step.value !== undefined ? resolve(step.value) : ok(step.value)`
shape: only `undefined` is passed through. -/
def resolveIfPresent (v : Option String) (context : TemplateContext) :
    Except TemplateVarError (Option String) :=
  match v with
  | none => .ok none
  | some s => (resolveTemplateStringResult s context).map some

def resolveStrings (context : TemplateContext) :
    List String → Except TemplateVarError (List String)
  | [] => .ok []
  | s :: rest =>
    match resolveTemplateStringResult s context with
    | .error e => .error e
    | .ok v =>
      match resolveStrings context rest with
      | .error e => .error e
      | .ok r => .ok (v :: r)

def resolveGuards (context : TemplateContext) :
    List Guard → Except TemplateVarError (List Guard)
  | [] => .ok []
  | g :: rest =>
    match resolveTemplateStringResult g.value context with
    | .error e => .error e
    | .ok v =>
      match resolveGuards context rest with
      | .error e => .error e
      | .ok r => .ok ({ g with value := v } :: r)

def resolveEffects (context : TemplateContext) :
    List Effect → Except TemplateVarError (List Effect)
  | [] => .ok []
  | e :: rest =>
    match resolveTemplateStringResult e.value context with
    | .error err => .error err
    | .ok v =>
      match resolveEffects context rest with
      | .error err => .error err
      | .ok r => .ok ({ e with value := v } :: r)

def resolveOptList {α : Type} (f : List α → Except TemplateVarError (List α)) :
    Option (List α) → Except TemplateVarError (Option (List α))
  | none => .ok none
  | some l => (f l).map some

/-- `resolveRecipeStepTemplatesResult`: substitute independently into `url`,
`value`, every selector variant, and every guard/effect value; the first
failure aborts. -/
def resolveRecipeStepTemplatesResult (step : RecipeStep) (context : TemplateContext) :
    Except TemplateVarError RecipeStep :=
  match resolveIfTruthy step.url context with
  | .error e => .error e
  | .ok url =>
    match resolveIfPresent step.value context with
    | .error e => .error e
    | .ok value =>
      match resolveOptList (resolveStrings context) step.selectorVariants with
      | .error e => .error e
      | .ok selectorVariants =>
        match resolveOptList (resolveGuards context) step.guards with
        | .error e => .error e
        | .ok guards =>
          match resolveOptList (resolveEffects context) step.effects with
          | .error e => .error e
          | .ok effects =>
            .ok { step with
                  url := url, value := value, selectorVariants := selectorVariants,
                  guards := guards, effects := effects }

/-- `collectStepTemplateTokens`: the union (first-occurrence order) of the
template tokens of `url`, `value`, the selector variants and guard/effect
values; falsy (empty) strings are skipped by `collect`. -/
def collectOptString : Option String → List String
  | none => []
  | some s => if s.isEmpty then [] else [s]

def collectTruthy (s : String) : List String :=
  if s.isEmpty then [] else [s]

def stepFieldStrings (step : RecipeStep) : List String :=
  collectOptString step.url ++ collectOptString step.value ++
    (step.selectorVariants.getD []).flatMap collectTruthy ++
    (step.guards.getD []).flatMap (fun g => collectTruthy g.value) ++
    (step.effects.getD []).flatMap (fun e => collectTruthy e.value)

def dedupAppend (acc : List String) (xs : List String) : List String :=
  xs.foldl (fun a t => if a.contains t then a else a ++ [t]) acc

def collectAccum (acc : List String) (v : String) : List String :=
  dedupAppend acc (listTemplateTokens v)

def collectStepTemplateTokens (step : RecipeStep) : List String :=
  (stepFieldStrings step).foldl collectAccum []

/-! ## Recipe variables and the execution-plan builder
    (src/core/execution-plan.ts) -/

inductive VarType
  | string
  | date
deriving DecidableEq, Repr

inductive VariableResolver
  | cli (key : Option String := none)
  | builtin (expr : String)
  | prompted (promptTemplate : String)
  | secret
deriving DecidableEq, Repr

structure RecipeVariable where
  name : String
  required : Option Bool := none
  type : Option VarType := none
  pattern : Option String := none
  defaultValue : Option String := none
  resolver : Option VariableResolver := none
deriving DecidableEq, Repr

structure FallbackPlan where
  selectorReSearch : Bool
  selectorVariants : List String
  allowRepair : Bool
deriving DecidableEq, Repr

inductive RecipeSource
  | compiled
  | repaired
  | healed
deriving DecidableEq, Repr

structure Recipe where
  schemaVersion : Nat
  id : String
  name : String
  version : Nat
  createdAt : String
  updatedAt : String
  source : RecipeSource
  steps : List RecipeStep
  variablesList : Option (List RecipeVariable) := none
  fallback : FallbackPlan
  notes : Option String := none
  downloadDir : Option String := none
deriving DecidableEq, Repr

structure ExecutionPlan where
  now : String
  resolvedVars : StrMap
  unresolvedVars : List String
  warnings : List String
  steps : List RecipeStep
deriving DecidableEq, Repr

inductive SecretStoreError
  | vault_read_failed (recipeName message : String)
  | vault_parse_failed (recipeName message : String)
  | vault_write_failed (recipeName message : String)
  | derive_key_failed (message : String)
  | encrypt_failed (variableName message : String)
deriving DecidableEq, Repr

def formatSecretStoreError : SecretStoreError → String
  | .vault_read_failed r m => "Secret vault read failed (" ++ r ++ "): " ++ m
  | .vault_parse_failed r m => "Secret vault parse failed (" ++ r ++ "): " ++ m
  | .vault_write_failed r m => "Secret vault write failed (" ++ r ++ "): " ++ m
  | .derive_key_failed m => "Secret key derivation failed: " ++ m
  | .encrypt_failed v m => "Secret encrypt failed (" ++ v ++ "): " ++ m

inductive BuildExecutionPlanError
  | variable_validation_failed (variableName message : String)
  | template_error (phase : String) (variableName : Option String) (stepId : Option String)
      (error : TemplateVarError)
  | unexpected_error (phase : String) (variableName message : String)
  | secret_store_error (phase : String) (variableName : String) (error : SecretStoreError)
deriving DecidableEq, Repr

def formatBuildExecutionPlanError : BuildExecutionPlanError → String
  | .variable_validation_failed _ message => message
  | .template_error phase _ stepId e =>
    let base := formatTemplateVarError e
    if phase == "step_resolution" then
      match stepId with
      | some sid => "Step " ++ sid ++ ": " ++ base
      | none => base
    else base
  | .secret_store_error phase variableName e =>
    "Secret store failed (" ++ phase ++ ", " ++ variableName ++ "): " ++ formatSecretStoreError e
  | .unexpected_error phase variableName message =>
    "Unexpected execution plan error: phase=" ++ phase ++ ", variable=" ++ variableName ++
      ": " ++ message

/-- `isDateValue`: `/^\d{4}-\d{2}-\d{2}$/`. -/
def isDateValue (value : String) : Bool :=
  match value.toList with
  | [a, b, c, d, '-', e, f, '-', g, h] =>
    a.isDigit && b.isDigit && c.isDigit && d.isDigit &&
      e.isDigit && f.isDigit && g.isDigit && h.isDigit
  | _ => false

/-- The outcome of the external secret loader, covering `ok(value|undefined)`,
an `err(SecretStoreError)` and a thrown exception. -/
inductive SecretLoadOutcome
  | value (v : Option String)
  | storeError (e : SecretStoreError)
  | thrown (message : String)

inductive SecretSaveOutcome
  | saved
  | storeError (e : SecretStoreError)
  | thrown (message : String)

/-- Build options: the caller-supplied values, the clock, and the external
collaborators (prompt runner, secret loader/saver) as oracles.  The JS
`RegExp.test` used for `RecipeVariable.pattern` is a platform primitive,
likewise supplied as an oracle. -/
structure BuildOptions where
  cliVars : StrMap := []
  now : JsDate
  llmCommand : Option String := none
  promptRunner : String → Option String → Except String String
  secretLoader : String → String → SecretLoadOutcome
  secretSaver : String → String → String → SecretSaveOutcome
  regexTest : String → String → Bool := fun _ _ => true

/-- `validateResolvedVariableResult`: a `date`-typed value must be
`YYYY-MM-DD`; a (truthy) `pattern` must `RegExp.test` the value. -/
def validateResolvedVariableResult (opts : BuildOptions) (varDecl : RecipeVariable)
    (value : String) : Except BuildExecutionPlanError Unit :=
  if varDecl.type == some .date && !isDateValue value then
    .error (.variable_validation_failed varDecl.name
      ("Variable " ++ varDecl.name ++ " must be date format YYYY-MM-DD"))
  else
    match varDecl.pattern with
    | some p =>
      if p.isEmpty then .ok ()
      else if opts.regexTest p value then .ok ()
      else .error (.variable_validation_failed varDecl.name
        ("Variable " ++ varDecl.name ++ " does not match pattern: " ++ p))
    | none => .ok ()

/-- Split on `/\r?\n/`. -/
def splitJsLines : List Char → List (List Char)
  | [] => [[]]
  | '\r' :: '\n' :: rest => [] :: splitJsLines rest
  | '\n' :: rest => [] :: splitJsLines rest
  | c :: rest =>
    match splitJsLines rest with
    | [] => [[c]]
    | l :: ls => (c :: l) :: ls

/-- `pickPromptValue`: first non-empty trimmed line, else the empty string. -/
def pickPromptValue (output : String) : String :=
  (((splitJsLines output.toList).map (fun l => jsTrim (String.mk l))).find?
      (fun l => !l.isEmpty)).getD ""

/-- `resolveVariableBySpecResult`: dispatch on the resolver kind.  A missing
resolver and `cli` read the caller-supplied map (the `key` alias is a JS
truthiness check, so an empty alias falls back to the name). -/
def resolveVariableBySpecResult (opts : BuildOptions) (recipeId : String)
    (varDecl : RecipeVariable) (resolvedVars : StrMap) :
    Except BuildExecutionPlanError (Option String) :=
  match varDecl.resolver with
  | none => .ok (strMapGet resolvedVars varDecl.name)
  | some (.cli key) =>
    match key with
    | some k =>
      if k.isEmpty then .ok (strMapGet resolvedVars varDecl.name)
      else .ok (strMapGet resolvedVars k)
    | none => .ok (strMapGet resolvedVars varDecl.name)
  | some (.builtin expr) =>
    match resolveTemplateStringResult ("\x7b\x7b" ++ expr ++ "\x7d\x7d")
        { vars := resolvedVars, now := opts.now } with
    | .error e => .error (.template_error "resolver_builtin" (some varDecl.name) none e)
    | .ok v => .ok (some v)
  | some .secret =>
    match opts.secretLoader recipeId varDecl.name with
    | .value v => .ok v
    | .storeError e => .error (.secret_store_error "secret_loader" varDecl.name e)
    | .thrown m => .error (.unexpected_error "secret_loader" varDecl.name m)
  | some (.prompted promptTemplate) =>
    match resolveTemplateStringResult promptTemplate
        { vars := resolvedVars, now := opts.now } with
    | .error e => .error (.template_error "resolver_prompt" (some varDecl.name) none e)
    | .ok p =>
      match opts.promptRunner p opts.llmCommand with
      | .error m => .error (.unexpected_error "prompt_runner" varDecl.name m)
      | .ok output =>
        let value := pickPromptValue output
        if value.isEmpty then .ok none else .ok (some value)

structure VarLoopState where
  resolvedVars : StrMap := []
  warnings : List String := []
  unresolvedVars : List String := []
deriving DecidableEq, Repr

/-- Insertion into the insertion-ordered `Set<string>` of unresolved names. -/
def addUnresolved (l : List String) (n : String) : List String :=
  if l.contains n then l else l ++ [n]

/-- The per-variable loop of `buildExecutionPlanResult`: pre-resolved values
are validated and kept; otherwise the resolver runs, `?? defaultValue`
applies, a present value is validated (fatal on failure) and recorded, and
an absent required variable is added to warnings and the unresolved set
while the loop continues. -/
def resolveVariablesLoop (opts : BuildOptions) (recipeId : String) :
    List RecipeVariable → VarLoopState → Except BuildExecutionPlanError VarLoopState
  | [], st => .ok st
  | varDecl :: rest, st =>
    match strMapGet st.resolvedVars varDecl.name with
    | some preResolved =>
      match validateResolvedVariableResult opts varDecl preResolved with
      | .error e => .error e
      | .ok _ => resolveVariablesLoop opts recipeId rest st
    | none =>
      match resolveVariableBySpecResult opts recipeId varDecl st.resolvedVars with
      | .error e => .error e
      | .ok resolved =>
        match resolved.or varDecl.defaultValue with
        | some finalValue =>
          match validateResolvedVariableResult opts varDecl finalValue with
          | .error e => .error e
          | .ok _ =>
            resolveVariablesLoop opts recipeId rest
              { st with resolvedVars := strMapSet st.resolvedVars varDecl.name finalValue }
        | none =>
          if varDecl.required.getD false then
            resolveVariablesLoop opts recipeId rest
              { st with
                unresolvedVars := addUnresolved st.unresolvedVars varDecl.name,
                warnings := st.warnings ++
                  ["Required variable is unresolved: " ++ varDecl.name] }
          else resolveVariablesLoop opts recipeId rest st

/-- The post-loop pass offering every resolved `secret`-kind variable to the
external secret saver; a store error or a thrown exception is fatal. -/
def saveSecretsLoop (opts : BuildOptions) (recipeId : String) (resolvedVars : StrMap) :
    List RecipeVariable → Except BuildExecutionPlanError Unit
  | [] => .ok ()
  | varDecl :: rest =>
    if varDecl.resolver == some .secret then
      match strMapGet resolvedVars varDecl.name with
      | some v =>
        match opts.secretSaver recipeId varDecl.name v with
        | .saved => saveSecretsLoop opts recipeId resolvedVars rest
        | .storeError e => .error (.secret_store_error "secret_saver" varDecl.name e)
        | .thrown m => .error (.unexpected_error "secret_saver" varDecl.name m)
      | none => saveSecretsLoop opts recipeId resolvedVars rest
    else saveSecretsLoop opts recipeId resolvedVars rest

/-- The final token scan: every step template token that is neither resolved
nor builtin joins the unresolved set. -/
def scanUnresolvedTokens (resolvedVars : StrMap) (steps : List RecipeStep)
    (unresolved0 : List String) : List String :=
  steps.foldl
    (fun acc step =>
      (collectStepTemplateTokens step).foldl
        (fun a token =>
          if (strMapGet resolvedVars token).isSome then a
          else if isBuiltinTemplateToken token then a
          else addUnresolved a token)
        acc)
    unresolved0

def resolveStepsList (context : TemplateContext) :
    List RecipeStep → Except BuildExecutionPlanError (List RecipeStep)
  | [] => .ok []
  | step :: rest =>
    match resolveRecipeStepTemplatesResult step context with
    | .error e => .error (.template_error "step_resolution" none (some step.id) e)
    | .ok s =>
      match resolveStepsList context rest with
      | .error e => .error e
      | .ok r => .ok (s :: r)

/-- Models `[...unresolvedVars].sort((a, b) => a.localeCompare(b))`; for the
ASCII identifiers variables use, `localeCompare` agrees with code-point
order, modelled here by insertion sort. -/
def insertSorted (x : String) : List String → List String
  | [] => [x]
  | y :: ys => if strLeB x y then x :: y :: ys else y :: insertSorted x ys

def sortStrings (l : List String) : List String :=
  l.foldr insertSorted []

/-- The tail of `buildExecutionPlanResult` after the variable and
secret-saving passes: scan the steps for leftover tokens and — only when
nothing is unresolved — substitute templates into every step. -/
def buildPlanFinal (recipe : Recipe) (opts : BuildOptions) (st : VarLoopState) :
    Except BuildExecutionPlanError ExecutionPlan :=
  if (scanUnresolvedTokens st.resolvedVars recipe.steps st.unresolvedVars).isEmpty then
    match resolveStepsList { vars := st.resolvedVars, now := opts.now } recipe.steps with
    | .error e => .error e
    | .ok stepsR =>
      .ok { now := opts.now.isoString, resolvedVars := st.resolvedVars,
            unresolvedVars := sortStrings
              (scanUnresolvedTokens st.resolvedVars recipe.steps st.unresolvedVars),
            warnings := st.warnings, steps := stepsR }
  else
    .ok { now := opts.now.isoString, resolvedVars := st.resolvedVars,
          unresolvedVars := sortStrings
            (scanUnresolvedTokens st.resolvedVars recipe.steps st.unresolvedVars),
          warnings := st.warnings, steps := recipe.steps }

/-- `buildExecutionPlanResult`: resolve every declared variable in order,
persist resolved secrets, then `buildPlanFinal`. -/
def buildExecutionPlanResult (recipe : Recipe) (opts : BuildOptions) :
    Except BuildExecutionPlanError ExecutionPlan :=
  match resolveVariablesLoop opts recipe.id (recipe.variablesList.getD [])
      { resolvedVars := opts.cliVars } with
  | .error e => .error e
  | .ok st =>
    match saveSecretsLoop opts recipe.id st.resolvedVars (recipe.variablesList.getD []) with
    | .error e => .error e
    | .ok _ => buildPlanFinal recipe opts st

/-- The decision `runCommandInternalResult` takes once the plan result is in
hand (run.ts lines 963-991): a plan error or any unresolved variable stops
the run in the `plan` phase; `--plan-only` reports the plan; otherwise the
plan's steps are handed to the step runner. -/
inductive RunDecision
  | planError (message : String)
  | planOnly (plan : ExecutionPlan)
  | executeSteps (steps : List RecipeStep)
deriving DecidableEq, Repr

def joinComma : List String → String
  | [] => ""
  | [x] => x
  | x :: rest => x ++ ", " ++ joinComma rest

def runCommandDecision (planOnly : Bool)
    (planResult : Except BuildExecutionPlanError ExecutionPlan) : RunDecision :=
  match planResult with
  | .error e => .planError (formatBuildExecutionPlanError e)
  | .ok plan =>
    if plan.unresolvedVars.length > 0 then
      .planError ("Unresolved variables: " ++ joinComma plan.unresolvedVars)
    else if planOnly then .planOnly plan
    else .executeSteps plan.steps

/-! ## HTTP fetch request construction
    (src/core/compile-heuristic.ts and src/commands/run.ts) -/

/-- `normalizeHttpMethod`: trim, upper-case, default `GET` on a missing or
empty method. -/
def normalizeHttpMethod (method : Option String) : String :=
  match method with
  | none => "GET"
  | some m =>
    let normalized := jsToUpper (jsTrim m)
    if normalized.isEmpty then "GET" else normalized

/-- The argument record `runHttpStepResult` hands to `context.fetch`
(run.ts lines 477-483). -/
structure FetchCall where
  url : String
  method : String
  headers : Option (List (String × String))
  data : Option String
  timeout : Nat
deriving DecidableEq, Repr

/-- The request `runHttpStepResult` issues for a step, `none` when the step
is not a (truthy-URL) fetch step and no request is made
(`if (step.action !== "fetch" || !step.url) return ok(beforeUrl)`). -/
def httpFetchCall (step : RecipeStep) : Option FetchCall :=
  match step.url with
  | none => none
  | some u =>
    if step.action != StepAction.fetch || u.isEmpty then none
    else some { url := u, method := normalizeHttpMethod step.method,
                headers := step.headers, data := step.body, timeout := 5000 }

/-- The recorded events consumed by `requestEventToFetchStep`
(src/types.ts `RecordedEvent`, restricted to the fields that function
reads). -/
structure RecordedEvent where
  type : String
  url : String
  method : Option String := none
  postData : Option String := none
  requestUrl : Option String := none
  headers : Option (List (String × String)) := none
deriving DecidableEq, Repr

def headerLookup (hs : List (String × String)) (k : String) : Option String :=
  match hs with
  | [] => none
  | (k2, v) :: rest => if k2 == k then some v else headerLookup rest k

/-- `pickReplayHeaders`: keep only `content-type` and `accept` (either
casing); an empty (falsy) value is dropped; an empty picked object becomes
`undefined`. -/
def pickReplayHeaders (headers : Option (List (String × String))) :
    Option (List (String × String)) :=
  match headers with
  | none => none
  | some hs =>
    let contentType := (headerLookup hs "content-type").or (headerLookup hs "Content-Type")
    let accept := (headerLookup hs "accept").or (headerLookup hs "Accept")
    let picked :=
      (match contentType with
       | some c => if c.isEmpty then [] else [("content-type", c)]
       | none => []) ++
      (match accept with
       | some a => if a.isEmpty then [] else [("accept", a)]
       | none => [])
    if picked.isEmpty then none else some picked

/-- `requestEventToFetchStep`: the compile-time construction of an
HTTP-mode fetch step; the recorded body is dropped when the normalized
method is GET or HEAD. -/
def requestEventToFetchStep (id title : String) (event : RecordedEvent)
    (optGuards : Option (List Guard) := none) (optDownload : Option Bool := none) :
    RecipeStep :=
  let method := normalizeHttpMethod event.method
  let body := if method == "GET" || method == "HEAD" then none else event.postData
  { id := id, title := title, mode := .http, action := .fetch,
    url := event.requestUrl, method := some method,
    headers := pickReplayHeaders event.headers, body := body,
    guards := optGuards, download := optDownload }

/-! ## Download filename resolution (src/commands/run.ts) -/

def charLowerEq (a b : Char) : Bool :=
  a.toLower == b.toLower

/-- Match a literal (case-insensitively, as under the regex `i` flag),
returning the remainder. -/
def matchLiteralCI : List Char → List Char → Option (List Char)
  | [], rest => some rest
  | _ :: _, [] => none
  | l :: ls, c :: cs => if charLowerEq c l then matchLiteralCI ls cs else none

def skipJsWs (cs : List Char) : List Char :=
  cs.dropWhile Char.isWhitespace

def filenameChars : List Char :=
  ['f', 'i', 'l', 'e', 'n', 'a', 'm', 'e']

def utf8TickChars : List Char :=
  ['U', 'T', 'F', '-', '8', '\'', '\'']

/-- `/filename\*\s*=\s*UTF-8''([^;]+)/i` attempted at one position: the
captured group is the nonempty run up to the next `;`. -/
def tryStarAt (cs : List Char) : Option (List Char) :=
  match matchLiteralCI (filenameChars ++ ['*']) cs with
  | none => none
  | some r1 =>
    match skipJsWs r1 with
    | '=' :: r3 =>
      match matchLiteralCI utf8TickChars (skipJsWs r3) with
      | none => none
      | some r5 =>
        let grp := r5.takeWhile (· != ';')
        if grp.isEmpty then none else some grp
    | _ => none

/-- `/filename\s*=\s*"([^"]+)"/i` at one position. -/
def tryQuotedAt (cs : List Char) : Option (List Char) :=
  match matchLiteralCI filenameChars cs with
  | none => none
  | some r1 =>
    match skipJsWs r1 with
    | '=' :: r3 =>
      match skipJsWs r3 with
      | '"' :: r5 =>
        let grp := r5.takeWhile (· != '"')
        if grp.isEmpty then none
        else
          match r5.drop grp.length with
          | '"' :: _ => some grp
          | _ => none
      | _ => none
    | _ => none

/-- `/filename\s*=\s*([^;]+)/i` at one position.  When only whitespace
stands before the `;`, the greedy `\s*` backtracks one character so the
group still matches (that character), as the regex engine does. -/
def tryBareAt (cs : List Char) : Option (List Char) :=
  match matchLiteralCI filenameChars cs with
  | none => none
  | some r1 =>
    match skipJsWs r1 with
    | '=' :: r3 =>
      let ws := r3.takeWhile Char.isWhitespace
      let grp := (r3.dropWhile Char.isWhitespace).takeWhile (· != ';')
      if !grp.isEmpty then some grp
      else
        match ws.getLast? with
        | some w => some [w]
        | none => none
    | _ => none

/-- Leftmost match of a single-position matcher, as regex search does. -/
def findFirstMatch (tryAt : List Char → Option (List Char)) :
    List Char → Option (List Char)
  | [] => none
  | c :: rest =>
    match tryAt (c :: rest) with
    | some g => some g
    | none => findFirstMatch tryAt rest

/-- `/^"(.*)"$/` → `$1`. -/
def stripSurroundingQuotes (s : String) : String :=
  match s.toList with
  | '"' :: rest =>
    if rest.length ≥ 1 && rest.getLastD 'x' == '"' then String.mk rest.dropLast else s
  | _ => s

def hexDigitVal (c : Char) : Option Nat :=
  let n := c.toNat
  if c.isDigit then some (n - 48)
  else if 97 ≤ n && n ≤ 102 then some (n - 87)
  else if 65 ≤ n && n ≤ 70 then some (n - 55)
  else none

def isUtf8Cont (b : Nat) : Bool :=
  0x80 ≤ b && b < 0xC0

/-- UTF-8 decoding of a byte run (fuel-indexed; `fuel = length` is exact
since every step consumes at least one byte).  Overlong encodings,
surrogates and out-of-range code points are rejected, as
`decodeURIComponent` rejects them with `URIError`. -/
def utf8DecodeFuel : Nat → List Nat → Option (List Char)
  | _, [] => some []
  | 0, _ :: _ => none
  | fuel + 1, b :: rest =>
    if b < 0x80 then
      (utf8DecodeFuel fuel rest).map (Char.ofNat b :: ·)
    else if 0xC2 ≤ b && b ≤ 0xDF then
      match rest with
      | b2 :: rest2 =>
        if isUtf8Cont b2 then
          (utf8DecodeFuel fuel rest2).map (Char.ofNat ((b - 0xC0) * 64 + (b2 - 0x80)) :: ·)
        else none
      | _ => none
    else if 0xE0 ≤ b && b ≤ 0xEF then
      match rest with
      | b2 :: b3 :: rest3 =>
        if isUtf8Cont b2 && isUtf8Cont b3 then
          let cp := (b - 0xE0) * 4096 + (b2 - 0x80) * 64 + (b3 - 0x80)
          if 0x800 ≤ cp && !(0xD800 ≤ cp && cp ≤ 0xDFFF) then
            (utf8DecodeFuel fuel rest3).map (Char.ofNat cp :: ·)
          else none
        else none
      | _ => none
    else if 0xF0 ≤ b && b ≤ 0xF4 then
      match rest with
      | b2 :: b3 :: b4 :: rest4 =>
        if isUtf8Cont b2 && isUtf8Cont b3 && isUtf8Cont b4 then
          let cp := (b - 0xF0) * 262144 + (b2 - 0x80) * 4096 + (b3 - 0x80) * 64 + (b4 - 0x80)
          if 0x10000 ≤ cp && cp ≤ 0x10FFFF then
            (utf8DecodeFuel fuel rest4).map (Char.ofNat cp :: ·)
          else none
        else none
      | _ => none
    else none

def utf8Decode (bs : List Nat) : Option (List Char) :=
  utf8DecodeFuel bs.length bs

/-- `decodeURIComponent`, modelled: percent-escapes gather into byte runs
that must decode as UTF-8; any malformed escape or invalid byte sequence
is a thrown `URIError`, i.e. `none`. -/
def percentDecodeLoop : List Char → List Nat → Option (List Char)
  | [], pending => utf8Decode pending
  | '%' :: a :: b :: rest, pending =>
    (match hexDigitVal a, hexDigitVal b with
     | some ha, some hb => percentDecodeLoop rest (pending ++ [ha * 16 + hb])
     | _, _ => none)
  | '%' :: _, _ => none
  | c :: rest, pending =>
    match utf8Decode pending with
    | none => none
    | some decoded =>
      (percentDecodeLoop rest []).map (fun tail => decoded ++ c :: tail)

def decodeURIComponentOpt (s : String) : Option String :=
  (percentDecodeLoop s.toList []).map String.mk

/-- `parseContentDispositionFilename`: prefer the RFC 5987
`filename*=UTF-8''...` form (trimmed, unquoted, percent-decoded; a decode
failure falls through), else the quoted form, else the bare form. -/
def parseContentDispositionFilename (contentDisposition : Option String) :
    Option String :=
  match contentDisposition with
  | none => none
  | some cd =>
    let cs := cd.toList
    let starResult : Option String :=
      match findFirstMatch tryStarAt cs with
      | some grp => decodeURIComponentOpt (stripSurroundingQuotes (jsTrim (String.mk grp)))
      | none => none
    match starResult with
    | some v => some v
    | none =>
      match findFirstMatch tryQuotedAt cs with
      | some grp => some (String.mk grp)
      | none =>
        match findFirstMatch tryBareAt cs with
        | some grp => some (jsTrim (String.mk grp))
        | none => none

def isPathHostile (c : Char) : Bool :=
  c == '/' || c == '\\' || c == '?' || c == '%' || c == '*' || c == ':' ||
    c == '|' || c == '"' || c == '<' || c == '>'

/-- `sanitizeFilename`: path-hostile characters become `_`; an empty result
becomes `download`. -/
def sanitizeFilename (filename : String) : String :=
  let sanitized := jsTrim (String.mk (filename.toList.map
    (fun c => if isPathHostile c then '_' else c)))
  if sanitized.isEmpty then "download" else sanitized

/-- Modelled from the platform: `new URL(u).pathname` under the same
simplified shape as `urlHostname` (dot-segment and percent normalization
are not modelled); an empty path reads back as `/`. -/
def urlPathname (u : String) : Option String :=
  match urlHostname u with
  | none => none
  | some _ =>
    match splitSchemeRest u.toList with
    | none => none
    | some (_, rest) =>
      let afterAuth := rest.dropWhile (fun c => c != '/' && c != '?' && c != '#')
      let path := afterAuth.takeWhile (fun c => c != '?' && c != '#')
      if path.isEmpty then some "/" else some (String.mk path)

/-- Node `path.basename` (posix): trailing slashes dropped, last component
returned; an all-slash path gives `/`. -/
def pathBasename (p : String) : String :=
  let cs := p.toList
  let stripped := (cs.reverse.dropWhile (· == '/')).reverse
  if stripped.isEmpty then (if cs.isEmpty then "" else "/")
  else String.mk ((stripped.reverse.takeWhile (· != '/')).reverse)

/-- The `urlBasename` IIFE of `saveHttpDownloadIfNeeded`: the basename of
the response URL's path when it is truthy and not `/`. -/
def urlBasenameOf (responseUrl : String) : Option String :=
  match urlPathname responseUrl with
  | none => none
  | some pathname =>
    let base := pathBasename pathname
    if !base.isEmpty && base != "/" then some base else none

def containsSubAux (sub : List Char) : List Char → Bool
  | [] => sub.isEmpty
  | c :: rest => sub.isPrefixOf (c :: rest) || containsSubAux sub rest

/-- JS `String.prototype.includes`. -/
def strContainsSub (s sub : String) : Bool :=
  containsSubAux sub.toList s.toList

/-- `extensionFromContentType`. -/
def extensionFromContentType (contentType : Option String) : String :=
  let normalized := jsToLower (contentType.getD "")
  if strContainsSub normalized "application/pdf" then ".pdf"
  else if strContainsSub normalized "text/csv" then ".csv"
  else if strContainsSub normalized "application/vnd.openxmlformats-officedocument.spreadsheetml.sheet"
      || strContainsSub normalized "application/vnd.ms-excel" then ".xlsx"
  else if strContainsSub normalized "application/vnd.openxmlformats-officedocument.wordprocessingml.document"
      || strContainsSub normalized "application/msword" then ".docx"
  else if strContainsSub normalized "application/zip" then ".zip"
  else ""

/-- The filename `saveHttpDownloadIfNeeded` saves under (before the
collision-safe `-1`, `-2`, … uniquing): header filename, else URL
basename, else the step id with a content-type-derived extension, the
winner sanitized. -/
def selectDownloadFilename (step : RecipeStep) (contentDisposition : Option String)
    (responseUrl : String) (contentType : Option String) : String :=
  let headerFilename := parseContentDispositionFilename contentDisposition
  let fallbackName := step.id ++ extensionFromContentType contentType
  sanitizeFilename (headerFilename.getD ((urlBasenameOf responseUrl).getD fallbackName))

/-! ## The self-healing step runner
    (src/commands/run.ts, runPlanStepsWithHeal, lines 668-936)

The browser, the HTTP client and the Phase-2 event capture are abstracted
as an environment of oracles; the control flow of the loop — which steps
run, in which order, what each failure turns into — is translated
directly from the source. -/

/-- The success payload of `executePwStepWithHealResult`. -/
structure PwHealOk where
  currentUrl : Option String
  healed : Bool
  patchSelectors : Option (List String) := none
deriving DecidableEq, Repr

/-- Oracles for the effectful parts of the heal runner:
`pwHeal` models `executePwStepWithHealResult` (guards, Phase-1 healing and
the retried action, with thrown exceptions folded into the error);
`httpStep` models `runHttpStepResult` together with the surrounding HTTP
context churn; `pwExec` models `assertGuards` plus `executeStepResult` for
a re-recorded browser step (no healing), returning the failure message on
error; `capturedNonempty` is whether the Phase-2 pause recorded any event
for the failed step, and `capturedSteps` is `eventsToSteps` on the
filtered user events; `fallbackPageUrl` is `page.url()` at the end. -/
structure HealEnv where
  pwHeal : RecipeStep → Option String → Except RunExecuteError PwHealOk
  httpStep : RecipeStep → Option String → Option String →
    Except RunExecuteError (Option String)
  pwExec : RecipeStep → Option String → Except String String
  capturedNonempty : RecipeStep → Bool
  capturedSteps : RecipeStep → List RecipeStep
  fallbackPageUrl : String := ""

structure HealState where
  pageUrl : Option String := none
  httpUrl : Option String := none
  previousStepMode : Option StepMode := none
  phase1Healed : Nat := 0
  phase2ReRecorded : Nat := 0
  selectorPatches : List (String × List String) := []
  phase2Replacements : List Phase2Replacement := []
  trace : List String := []
deriving Repr

structure HealRunOutcome where
  lastUrl : Option String
  phase1Healed : Nat
  phase2ReRecorded : Nat
  selectorPatches : List (String × List String)
  phase2Replacements : List Phase2Replacement
deriving DecidableEq, Repr

/-- `selectorPatches.set(step.id, ...)` on the run-scoped `Map`. -/
def patchesSet (m : List (String × List String)) (k : String) (v : List String) :
    List (String × List String) :=
  match m with
  | [] => [(k, v)]
  | (k2, v2) :: rest => if k2 == k then (k2, v) :: rest else (k2, v2) :: patchesSet rest k v

/-- The renumbering `\x7bstep.id\x7d-healed-\x7bidx + 1\x7d` of the captured
steps. -/
def renumberHealedSteps (parentId : String) (newSteps : List RecipeStep) : List RecipeStep :=
  (newSteps.enum).map
    (fun p => { p.2 with id := parentId ++ "-healed-" ++ toString (p.1 + 1) })

/-- The inner loop executing the re-recorded Phase-2 steps (run.ts lines
826-904): each gets a `logStepStart` trace entry; an HTTP step runs
through the HTTP oracle, a browser step through guards-plus-execute; any
failure becomes `re_record_failed` for the original step id. -/
def runReRecorded (env : HealEnv) (parentId : String) :
    List RecipeStep → HealState → HealState × Option RunExecuteError
  | [], st => (st, none)
  | newStep :: rest, st =>
    let st1 := { st with trace := st.trace ++ [newStep.id] }
    match newStep.mode with
    | .http =>
      match env.httpStep newStep (st1.pageUrl.or st1.httpUrl) (st1.httpUrl.or st1.pageUrl) with
      | .error e => (st1, some (.re_record_failed parentId newStep.id e.message))
      | .ok u =>
        runReRecorded env parentId rest
          { st1 with httpUrl := u, previousStepMode := some .http }
    | .pw =>
      match env.pwExec newStep st1.pageUrl with
      | .error msg => (st1, some (.re_record_failed parentId newStep.id msg))
      | .ok u =>
        runReRecorded env parentId rest
          { st1 with pageUrl := some u, previousStepMode := some .pw }

/-- The main loop of `runPlanStepsWithHeal` (run.ts lines 703-906).  On a
browser-step failure, Phase 2 fires: an empty capture is fatal, otherwise
the renumbered captured steps are recorded as a replacement and executed
immediately — and then the loop CONTINUES with the next original step
(there is no early return after the Phase-2 block). -/
def healLoop (env : HealEnv) (hasPw : Bool) :
    List RecipeStep → HealState → HealState × Option RunExecuteError
  | [], st => (st, none)
  | step :: rest, st =>
    let st1 := { st with trace := st.trace ++ [step.id] }
    match step.mode with
    | .http =>
      match env.httpStep step (st1.pageUrl.or st1.httpUrl) (st1.httpUrl.or st1.pageUrl) with
      | .error e => (st1, some e)
      | .ok u =>
        healLoop env hasPw rest { st1 with httpUrl := u, previousStepMode := some .http }
    | .pw =>
      if !hasPw then
        (st1, some (.context_unavailable step.id
          ("Playwright page is not available for step " ++ step.id)))
      else
        match env.pwHeal step st1.pageUrl with
        | .ok r =>
          let healedPatch := r.healed && r.patchSelectors.isSome
          let st2 :=
            { st1 with
              pageUrl := r.currentUrl,
              selectorPatches :=
                match r.patchSelectors with
                | some ps => if r.healed then patchesSet st1.selectorPatches step.id ps
                             else st1.selectorPatches
                | none => st1.selectorPatches,
              phase1Healed := st1.phase1Healed + (if healedPatch then 1 else 0),
              previousStepMode := some .pw }
          healLoop env hasPw rest st2
        | .error _ =>
          if !(env.capturedNonempty step) then
            (st1, some (.heal_record_failed step.id "no user actions recorded"))
          else
            let newSteps := env.capturedSteps step
            if newSteps.isEmpty then
              (st1, some (.heal_record_failed step.id "no executable steps recorded"))
            else
              let reNumberedSteps := renumberHealedSteps step.id newSteps
              let st2 :=
                { st1 with
                  phase2Replacements := st1.phase2Replacements ++
                    [{ replacedFromStepId := step.id, newSteps := reNumberedSteps }],
                  phase2ReRecorded := st1.phase2ReRecorded + 1 }
              match runReRecorded env step.id reNumberedSteps st2 with
              | (st3, some e) => (st3, some e)
              | (st3, none) => healLoop env hasPw rest st3

/-- `runPlanStepsWithHeal`: run every step under the healing wrapper; the
final state carries the trace of `logStepStart` ids in execution order. -/
def runPlanStepsWithHeal (env : HealEnv) (steps : List RecipeStep) :
    HealState × Except RunExecuteError HealRunOutcome :=
  let hasPw := steps.any (fun s => s.mode == StepMode.pw)
  match healLoop env hasPw steps {} with
  | (st, some e) => (st, .error e)
  | (st, none) =>
    (st, .ok
      { lastUrl := st.pageUrl.or (st.httpUrl.or
          (if hasPw then some env.fallbackPageUrl else none)),
        phase1Healed := st.phase1Healed,
        phase2ReRecorded := st.phase2ReRecorded,
        selectorPatches := st.selectorPatches,
        phase2Replacements := st.phase2Replacements })

/-! ## Spec-side definitions used by refinement statements -/

/-- The spec's URL-pattern rule, as worded in §8: a pattern ending in `*`
matches a candidate iff the candidate is a prefix match on the pattern
with the trailing `*` stripped; a non-wildcard pattern requires exact
equality. -/
def specUrlPatternMatches (pattern candidate : String) : Bool :=
  if jsEndsWith pattern "*" then jsStartsWith candidate (strDropLast1 pattern)
  else candidate == pattern

/-! ## Helper lemmas -/

theorem findIdxQ_append_cons (pre : List RecipeStep) (s : RecipeStep) (post : List RecipeStep)
    (h : ∀ p ∈ pre, (p.id == s.id) = false) :
    List.findIdx? (fun q => q.id == s.id) (pre ++ s :: post) = some pre.length := by
  induction pre with
  | nil => simp [List.findIdx?_cons]
  | cons p pre ih =>
    have hp : (p.id == s.id) = false := h p (by simp)
    have ih2 := ih (fun q hq => h q (by simp [hq]))
    simp [List.findIdx?_cons, hp, ih2]

theorem insertSorted_ne_nil (x : String) (l : List String) : insertSorted x l ≠ [] := by
  cases l with
  | nil => simp [insertSorted]
  | cons y ys =>
    simp only [insertSorted]
    split <;> simp

theorem sortStrings_eq_nil_iff (l : List String) : sortStrings l = [] ↔ l = [] := by
  cases l with
  | nil => simp [sortStrings]
  | cons a l =>
    simp only [sortStrings, List.foldr]
    constructor
    · intro h; exact absurd h (insertSorted_ne_nil a _)
    · intro h; cases h

/-! ## C2 — URL pattern matching for guards and effects -/

/-- C2, counterexample: the claim extends the wildcard rule to the
`url_changed` effect's expected value, but `evaluateEffect` compares that
value by exact string equality only — a wildcard pattern that
prefix-matches the current URL is still reported as a failed effect. -/
theorem url_changed_wildcard_refuted :
    matchesUrl "https://example.com/a*" "https://example.com/ab" = true ∧
    evaluateEffect { type := .url_changed, value := "https://example.com/a*" }
      { beforeUrl := some "https://start", currentUrl := some "https://example.com/ab",
        page := none } = false := by
  decide

/-- C2 (amended): for a present, non-empty current URL, the `url_is` guard
accepts exactly the spec's wildcard/exact pattern rule and `url_not` its
negation; the `url_changed` effect's (non-empty) expected value is instead
compared by exact string equality, with no wildcard handling. -/
theorem url_matching_guard_vs_effect (pattern candidate : String) (b : Option String)
    (hc : candidate.isEmpty = false) (hp : pattern.isEmpty = false) :
    (evaluateGuard { type := .url_is, value := pattern }
        { currentUrl := some candidate, page := none } =
      specUrlPatternMatches pattern candidate)
    ∧ (evaluateGuard { type := .url_not, value := pattern }
        { currentUrl := some candidate, page := none } =
      !specUrlPatternMatches pattern candidate)
    ∧ (evaluateEffect { type := .url_changed, value := pattern }
        { beforeUrl := b, currentUrl := some candidate, page := none } =
      (candidate == pattern)) := by
  refine ⟨?_, ?_, ?_⟩
  · simp [evaluateGuard, hc, matchesUrl, specUrlPatternMatches]
  · simp [evaluateGuard, hc, matchesUrl, specUrlPatternMatches]
  · simp [evaluateEffect, hc, hp]

/-- C2 witness: the amended theorem applied at concrete inputs. -/
theorem url_matching_guard_vs_effect_witness :
    evaluateGuard { type := GuardType.url_is, value := "https://example.com/a*" }
      { currentUrl := some "https://example.com/ab", page := none } =
      specUrlPatternMatches "https://example.com/a*" "https://example.com/ab" :=
  (url_matching_guard_vs_effect "https://example.com/a*" "https://example.com/ab"
    (some "https://start") (by decide) (by decide)).1

/-! ## C10 — HTTP guard relaxation under healing -/

/-- C10: with healing enabled, an HTTP-mode step whose guard validation
fails still proceeds to execution exactly when some `url_is` guard's
hostname equals the current URL's hostname — whichever guard actually
failed; with no current URL the skip never applies, so the step proceeds
only when guard validation itself succeeds. -/
theorem http_guard_skip_iff_hostname_match (step : RecipeStep) (u : String)
    (e : StepValidationError) (heal2 : Bool) (hu : u.isEmpty = false)
    (hfail : validateGuards step { currentUrl := some u, page := none } = .error e) :
    (httpGuardPhase step (some u) true = .ok () ↔
      (step.guards.getD []).any
        (fun g => g.type == GuardType.url_is && guardHostnameMatches g.value u) = true)
    ∧ canSkipGuardForHttp step none = false
    ∧ (httpGuardPhase step none heal2 = .ok () ↔
        validateGuards step { currentUrl := none, page := none } = .ok ()) := by
  refine ⟨?_, rfl, ?_⟩
  · unfold httpGuardPhase
    rw [hfail]
    unfold canSkipGuardForHttp
    simp only [Bool.true_and, hu, Bool.false_eq_true, if_false]
    split
    · simp_all
    · simp_all
  · cases hv : validateGuards step { currentUrl := none, page := none } with
    | ok a =>
      unfold httpGuardPhase
      rw [hv]
      simp
    | error e2 =>
      unfold httpGuardPhase
      rw [hv]
      simp [canSkipGuardForHttp]

def httpGuardDemoStep : RecipeStep :=
  { id := "s-http", title := "fetch", mode := .http, action := .fetch,
    url := some "https://example.com/api",
    guards := some [{ type := .url_is, value := "https://example.com/path*" }] }

/-- C10 witness: a failing wildcard `url_is` guard whose hostname matches
the current URL is skipped under healing. -/
theorem http_guard_skip_iff_hostname_match_witness :
    httpGuardPhase httpGuardDemoStep (some "https://example.com/another") true = .ok () :=
  (http_guard_skip_iff_hostname_match httpGuardDemoStep "https://example.com/another"
      { kind := .guard_failed, stepId := "s-http", checkType := "url_is",
        value := "https://example.com/path*" }
      true (by decide) (by decide)).1.mpr (by decide)

/-! ## C7 — Phase-2 replacement splice -/

/-- C7: applying a Phase-2 replacement keyed by a step id splices the new
steps in at the position of that step, replacing exactly it and preserving
every step before and after it in order. -/
theorem applyPhase2Replacements_splices (pre post newSteps : List RecipeStep)
    (s : RecipeStep) (h : ∀ p ∈ pre, (p.id == s.id) = false) :
    applyPhase2Replacements (pre ++ s :: post)
        [{ replacedFromStepId := s.id, newSteps := newSteps }] =
      pre ++ newSteps ++ post := by
  unfold applyPhase2Replacements
  simp only [List.foldl]
  rw [findIdxQ_append_cons pre s post h]
  have hd : (pre ++ s :: post).drop (pre.length + 1) = post := by
    rw [show pre ++ s :: post = (pre ++ [s]) ++ post by simp]
    rw [show pre.length + 1 = (pre ++ [s]).length by simp]
    exact List.drop_left _ _
  have ht : (pre ++ s :: post).take pre.length = pre := List.take_left _ _
  show (pre ++ s :: post).take pre.length ++ newSteps ++
      (pre ++ s :: post).drop (pre.length + 1) = pre ++ newSteps ++ post
  rw [ht, hd]

def phase2DemoStep (i : String) : RecipeStep :=
  { id := i, title := i, mode := .pw, action := .click, selectorVariants := some ["#x"] }

/-- C7 witness: the spec's concrete example — `[s1, s2, s3]` with `s2`
replaced by the two healed steps yields
`[s1, s2-healed-1, s2-healed-2, s3]`. -/
theorem applyPhase2Replacements_splices_witness :
    applyPhase2Replacements
        ([phase2DemoStep "s1"] ++ phase2DemoStep "s2" :: [phase2DemoStep "s3"])
        [{ replacedFromStepId := (phase2DemoStep "s2").id,
           newSteps := [phase2DemoStep "s2-healed-1", phase2DemoStep "s2-healed-2"] }] =
      [phase2DemoStep "s1"] ++
        [phase2DemoStep "s2-healed-1", phase2DemoStep "s2-healed-2"] ++
        [phase2DemoStep "s3"] :=
  applyPhase2Replacements_splices [phase2DemoStep "s1"] [phase2DemoStep "s3"]
    [phase2DemoStep "s2-healed-1", phase2DemoStep "s2-healed-2"]
    (phase2DemoStep "s2")
    (by intro p hp; rw [List.mem_singleton] at hp; subst hp; decide)

/-! ## C4 — HTTP fetch method normalization and body handling -/

/-- C4, counterexample: at run time `runHttpStepResult` passes the step's
body through unconditionally — here a fetch step whose normalized method
is `GET` still carries `data`, contradicting the claim that a body is
sent only for methods other than GET/HEAD. -/
theorem http_fetch_body_sent_for_get :
    httpFetchCall
        { id := "s1", title := "download", mode := .http, action := .fetch,
          url := some "https://example.com/export", method := some "get",
          body := some "cached-payload" } =
      some { url := "https://example.com/export", method := "GET", headers := none,
             data := some "cached-payload", timeout := 5000 } := by
  decide

/-- C4 (amended): the run-time request uses the step's normalized method
(trimmed, upper-cased, `GET` when absent or blank) but passes the step's
body through unchanged; the GET/HEAD body suppression happens at compile
time, where `requestEventToFetchStep` stores no body exactly when the
normalized method is GET or HEAD. -/
theorem http_fetch_method_normalized_body_passthrough
    (step : RecipeStep) (fc : FetchCall) (m : String) (ev : RecordedEvent)
    (id title : String) (g : Option (List Guard)) (d : Option Bool)
    (hfc : httpFetchCall step = some fc) :
    (fc.method = normalizeHttpMethod step.method ∧ fc.data = step.body)
    ∧ normalizeHttpMethod none = "GET"
    ∧ ((jsToUpper (jsTrim m)).isEmpty = true → normalizeHttpMethod (some m) = "GET")
    ∧ ((jsToUpper (jsTrim m)).isEmpty = false →
        normalizeHttpMethod (some m) = jsToUpper (jsTrim m))
    ∧ ((requestEventToFetchStep id title ev g d).method =
        some (normalizeHttpMethod ev.method))
    ∧ (normalizeHttpMethod ev.method = "GET" ∨ normalizeHttpMethod ev.method = "HEAD" →
        (requestEventToFetchStep id title ev g d).body = none)
    ∧ (normalizeHttpMethod ev.method ≠ "GET" → normalizeHttpMethod ev.method ≠ "HEAD" →
        (requestEventToFetchStep id title ev g d).body = ev.postData) := by
  refine ⟨?_, rfl, ?_, ?_, rfl, ?_, ?_⟩
  · unfold httpFetchCall at hfc
    cases hu : step.url with
    | none => simp [hu] at hfc
    | some u =>
      simp only [hu] at hfc
      by_cases hcond : (step.action != StepAction.fetch || u.isEmpty) = true
      · rw [if_pos hcond] at hfc; cases hfc
      · rw [if_neg hcond] at hfc
        cases hfc
        exact ⟨rfl, rfl⟩
  · intro h; simp [normalizeHttpMethod, h]
  · intro h; simp [normalizeHttpMethod, h]
  · intro h
    rcases h with h | h <;> simp [requestEventToFetchStep, h]
  · intro h1 h2
    simp [requestEventToFetchStep, h1, h2]

/-- C4 witness: the amended theorem at a concrete fetch step and recorded
event. -/
theorem http_fetch_method_normalized_body_passthrough_witness :
    httpFetchCall
        { id := "s9", title := "api", mode := StepMode.http, action := StepAction.fetch,
          url := some "https://api.example.com/v1", method := some "post",
          body := some "payload" } =
      some { url := "https://api.example.com/v1", method := "POST", headers := none,
             data := some "payload", timeout := 5000 } ∧
    normalizeHttpMethod (some "post") = "POST" := by
  refine ⟨by decide, ?_⟩
  have h := http_fetch_method_normalized_body_passthrough
    { id := "s9", title := "api", mode := StepMode.http, action := StepAction.fetch,
      url := some "https://api.example.com/v1", method := some "post",
      body := some "payload" }
    { url := "https://api.example.com/v1", method := "POST", headers := none,
      data := some "payload", timeout := 5000 }
    "post" { type := "request", url := "u" } "sid" "t" none none (by decide)
  exact (h.2.2.2.1 (by decide)).symm.trans (by decide)

/-! ## C9 — download filename resolution -/

def rfc5987Example : String :=
  "attachment; filename*=UTF-8" ++ String.mk ['\'', '\''] ++ "report%20Q1.pdf"

/-- C9, counterexample: with no usable content-disposition, the code falls
back to the basename of the response URL's path before ever reaching the
step-id-plus-extension fallback the claim names next — the claimed chain
omits the URL-basename step. -/
theorem download_filename_url_basename_refuted :
    selectDownloadFilename { id := "s1", title := "t", mode := .http, action := .fetch }
        none "https://x.com/files/data.bin" (some "application/pdf") = "data.bin"
    ∧ "s1" ++ extensionFromContentType (some "application/pdf") = "s1.pdf"
    ∧ ("data.bin" : String) ≠ "s1.pdf" := by
  decide

/-- C9 (amended): `attachment; filename*=UTF-8''report%20Q1.pdf` saves as
`report Q1.pdf`; resolution prefers the percent-decoded RFC 5987 form,
else the quoted form, else the bare form; when the header gives nothing,
the basename of the response URL's path is used, and only failing that the
step id with a content-type-derived extension — the winner sanitized. -/
theorem download_filename_resolution
    (step : RecipeStep) (cd1 cd2 : Option String) (u u2 : String) (ct : Option String)
    (f b : String)
    (h1 : parseContentDispositionFilename cd1 = some f)
    (h2 : parseContentDispositionFilename cd2 = none)
    (hb : urlBasenameOf u = some b)
    (hb2 : urlBasenameOf u2 = none) :
    parseContentDispositionFilename (some rfc5987Example) = some "report Q1.pdf"
    ∧ selectDownloadFilename step (some rfc5987Example) u ct = "report Q1.pdf"
    ∧ selectDownloadFilename step cd1 u ct = sanitizeFilename f
    ∧ selectDownloadFilename step cd2 u ct = sanitizeFilename b
    ∧ selectDownloadFilename step cd2 u2 ct =
        sanitizeFilename (step.id ++ extensionFromContentType ct)
    ∧ parseContentDispositionFilename (some "attachment; filename=\"a b.pdf\"; x=1") =
        some "a b.pdf"
    ∧ parseContentDispositionFilename (some "attachment; filename=plain.pdf") =
        some "plain.pdf" := by
  have hstar : parseContentDispositionFilename (some rfc5987Example) =
      some "report Q1.pdf" := by decide
  refine ⟨hstar, ?_, ?_, ?_, ?_, by decide, by decide⟩
  · simp [selectDownloadFilename, hstar]
    decide
  · simp [selectDownloadFilename, h1]
  · simp [selectDownloadFilename, h2, hb]
  · simp [selectDownloadFilename, h2, hb2]

/-- C9 witness: the amended resolution chain at concrete headers and URLs. -/
theorem download_filename_resolution_witness :
    selectDownloadFilename
        { id := "s1", title := "t", mode := StepMode.http, action := StepAction.fetch }
        (some "attachment; filename=x.pdf") "https://x.com/files/data.bin" none =
      sanitizeFilename "x.pdf" :=
  (download_filename_resolution
    { id := "s1", title := "t", mode := StepMode.http, action := StepAction.fetch }
    (some "attachment; filename=x.pdf") none "https://x.com/files/data.bin"
    "https://x.com/" none "x.pdf" "data.bin"
    (by decide) (by decide) (by decide) (by decide)).2.2.1

/-! ## C3 — the spec's worked plan-building example -/

def planDemoRecipe : Recipe :=
  { schemaVersion := 1, id := "demo", name := "demo", version := 1,
    createdAt := "2026-01-01T00:00:00.000Z", updatedAt := "2026-01-01T00:00:00.000Z",
    source := .compiled, steps := [],
    variablesList := some
      [{ name := "tenant", required := some true, resolver := some (.cli none) },
       { name := "targetDate", resolver := some (.builtin "today+1d") },
       { name := "searchKeyword", resolver := some (.prompted "Enter the search keyword") }],
    fallback := { selectorReSearch := false, selectorVariants := [], allowRepair := false } }

/-- The run's clock: the instant 2026-02-26T08:00:00Z, whose local calendar
date (the runtime's zone taken as UTC) is 2026-02-26. -/
def planDemoOptions : BuildOptions :=
  { cliVars := [("tenant", "acme")],
    now := { year := 2026, monthIndex := 1, day := 26,
             isoString := "2026-02-26T08:00:00.000Z" },
    promptRunner := fun _ _ => .ok "notebook",
    secretLoader := fun _ _ => .value none,
    secretSaver := fun _ _ _ => .saved }

/-- C3: with `tenant` (cli, required) supplied as `acme`, `targetDate`
(builtin `today+1d`) and `searchKeyword` (prompted, runner output
`notebook`), plan building at 2026-02-26T08:00:00Z resolves exactly
`tenant=acme`, `targetDate=2026-02-27`, `searchKeyword=notebook`, with no
unresolved variables. -/
theorem plan_example_resolves_variables :
    buildExecutionPlanResult planDemoRecipe planDemoOptions =
      .ok { now := "2026-02-26T08:00:00.000Z",
            resolvedVars := [("tenant", "acme"), ("targetDate", "2026-02-27"),
                             ("searchKeyword", "notebook")],
            unresolvedVars := [], warnings := [], steps := [] } := by
  decide

/-! ## C5 — secret resolver: absence vs. store errors -/

def secretDemoRecipe (dv : Option String) (req : Bool) : Recipe :=
  { schemaVersion := 1, id := "sec", name := "sec", version := 1,
    createdAt := "", updatedAt := "", source := .compiled, steps := [],
    variablesList := some
      [{ name := "apiKey", required := some req, defaultValue := dv,
         resolver := some .secret },
       { name := "w", resolver := some (.builtin "today") }],
    fallback := { selectorReSearch := false, selectorVariants := [], allowRepair := false } }

def secretDemoOptions (load : SecretLoadOutcome) (save : SecretSaveOutcome) : BuildOptions :=
  { cliVars := [],
    now := { year := 2026, monthIndex := 1, day := 26, isoString := "Z" },
    promptRunner := fun _ _ => .ok "",
    secretLoader := fun _ _ => load,
    secretSaver := fun _ _ _ => save }

/-- C5, counterexample: the claim says an absent secret with no default is
marked unresolved, but a NON-required variable is simply skipped — the
plan comes back with an empty unresolved set and no binding for it. -/
theorem secret_absent_not_required_refuted :
    buildExecutionPlanResult (secretDemoRecipe none false)
        (secretDemoOptions (.value none) .saved) =
      .ok { now := "Z", resolvedVars := [("w", "2026-02-26")], unresolvedVars := [],
            warnings := [], steps := [] } := by
  decide

set_option maxRecDepth 100000 in
/-- C5 (amended): an absent secret falls back to the variable's
`defaultValue`; failing that, a REQUIRED variable is marked unresolved
(with a warning) while resolution continues with the remaining variables;
a loader store error, or a saver store error, fails plan building with a
`secret_store_error`. -/
theorem secret_resolver_fallback_and_errors (d : String) (e : SecretStoreError) :
    buildExecutionPlanResult (secretDemoRecipe (some d) true)
        (secretDemoOptions (.value none) .saved) =
      .ok { now := "Z", resolvedVars := [("apiKey", d), ("w", "2026-02-26")],
            unresolvedVars := [], warnings := [], steps := [] }
    ∧ buildExecutionPlanResult (secretDemoRecipe none true)
        (secretDemoOptions (.value none) .saved) =
      .ok { now := "Z", resolvedVars := [("w", "2026-02-26")],
            unresolvedVars := ["apiKey"],
            warnings := ["Required variable is unresolved: apiKey"], steps := [] }
    ∧ buildExecutionPlanResult (secretDemoRecipe none true)
        (secretDemoOptions (.storeError e) .saved) =
      .error (.secret_store_error "secret_loader" "apiKey" e)
    ∧ buildExecutionPlanResult (secretDemoRecipe (some d) true)
        (secretDemoOptions (.value none) (.storeError e)) =
      .error (.secret_store_error "secret_saver" "apiKey" e) := by
  refine ⟨?_, ?_, ?_, ?_⟩
  · with_unfolding_all rfl
  · with_unfolding_all rfl
  · with_unfolding_all rfl
  · with_unfolding_all rfl

/-! ## C6 — unresolved plans keep steps untouched and are never executed -/

/-- C6: when plan building succeeds with a non-empty unresolved set, the
plan's steps are the recipe's steps unchanged; and the run command only
ever hands steps to the runner when the plan's unresolved set is empty
(and then exactly the plan's steps). -/
theorem unresolved_plan_not_executed (recipe : Recipe) (opts : BuildOptions)
    (plan : ExecutionPlan) (h : buildExecutionPlanResult recipe opts = .ok plan) :
    (plan.unresolvedVars ≠ [] → plan.steps = recipe.steps)
    ∧ (∀ (planOnly : Bool) (steps2 : List RecipeStep),
        runCommandDecision planOnly (buildExecutionPlanResult recipe opts) =
          .executeSteps steps2 →
        plan.unresolvedVars = [] ∧ steps2 = plan.steps) := by
  constructor
  · intro hne
    unfold buildExecutionPlanResult at h
    split at h
    · exact absurd h (by simp)
    · split at h
      · exact absurd h (by simp)
      · unfold buildPlanFinal at h
        split at h
        · split at h
          · exact absurd h (by simp)
          · injection h with h2
            subst h2
            simp_all [sortStrings_eq_nil_iff, List.isEmpty_iff]
        · injection h with h2
          subst h2
          rfl
  · intro planOnly steps2 hd
    rw [h] at hd
    simp only [runCommandDecision] at hd
    by_cases hlen : plan.unresolvedVars.length > 0
    · rw [if_pos hlen] at hd; cases hd
    · rw [if_neg hlen] at hd
      have hnil : plan.unresolvedVars = [] := by
        cases hl : plan.unresolvedVars with
        | nil => rfl
        | cons a l => rw [hl] at hlen; exact absurd (by simp) hlen
      by_cases hpo : planOnly = true
      · rw [if_pos hpo] at hd; cases hd
      · rw [if_neg hpo] at hd
        injection hd with hd2
        exact ⟨hnil, hd2.symm⟩

def c6Recipe : Recipe :=
  { schemaVersion := 1, id := "c6", name := "c6", version := 1,
    createdAt := "", updatedAt := "", source := .compiled,
    steps := [{ id := "s1", title := "t", mode := .http, action := .fetch,
                url := some "https://x.example/\x7b\x7bmissing\x7d\x7d" }],
    fallback := { selectorReSearch := false, selectorVariants := [], allowRepair := false } }

def c6Options : BuildOptions :=
  { cliVars := [],
    now := { year := 2026, monthIndex := 0, day := 1, isoString := "I" },
    promptRunner := fun _ _ => .ok "",
    secretLoader := fun _ _ => .value none,
    secretSaver := fun _ _ _ => .saved }

def c6Plan : ExecutionPlan :=
  { now := "I", resolvedVars := [], unresolvedVars := ["missing"], warnings := [],
    steps := c6Recipe.steps }

/-- C6 witness: a recipe whose step carries an unknown token builds into a
plan with that token unresolved and the steps untouched, and the run
command refuses to execute it. -/
theorem unresolved_plan_not_executed_witness :
    buildExecutionPlanResult c6Recipe c6Options = .ok c6Plan
    ∧ c6Plan.steps = c6Recipe.steps
    ∧ runCommandDecision false (buildExecutionPlanResult c6Recipe c6Options) =
        .planError "Unresolved variables: missing" :=
  ⟨by decide,
   (unresolved_plan_not_executed c6Recipe c6Options c6Plan (by decide)).1 (by decide),
   by decide⟩

/-! ## C8 — idempotence of template resolution on fully resolved steps -/

theorem strMk_append (a b : List Char) : String.mk a ++ String.mk b = String.mk (a ++ b) :=
  rfl

theorem scanTemplateBody_eq :
    ∀ (cs m rest : List Char), scanTemplateBody cs = some (m, rest) →
      cs = m ++ '}' :: '}' :: rest := by
  intro cs
  induction cs with
  | nil => intro m rest h; simp [scanTemplateBody] at h
  | cons c cs ih =>
    intro m rest h
    unfold scanTemplateBody at h
    split at h
    · split at h
      · split at h
        · injection h with h2
          injection h2 with hm hr
          subst hm; subst hr
          simp_all
        · cases h
      · cases h
    · split at h
      · cases h
      · split at h
        · injection h with h2
          injection h2 with hm hr
          subst hm; subst hr
          rename_i heq
          rw [ih _ _ heq]
          simp
        · cases h

theorem templateSegmentsFuel_nil (fuel : Nat) : templateSegmentsFuel fuel [] = [] := by
  cases fuel <;> rfl

theorem templateSegmentsFuel_flatten :
    ∀ (fuel : Nat) (cs : List Char), cs.length ≤ fuel →
      ((templateSegmentsFuel fuel cs).flatMap segChars) = cs := by
  intro fuel
  induction fuel with
  | zero =>
    intro cs h
    have : cs = [] := List.length_eq_zero.mp (Nat.le_zero.mp h)
    subst this
    rfl
  | succ fuel ih =>
    intro cs h
    cases cs with
    | nil => rfl
    | cons c rest =>
      cases rest with
      | nil =>
        by_cases hc : c = '{'
        · subst hc
          simp [templateSegmentsFuel, templateSegmentsFuel_nil, segChars]
        · simp [templateSegmentsFuel, hc, templateSegmentsFuel_nil, segChars]
      | cons c2 rest2 =>
        have hlen : (c2 :: rest2).length ≤ fuel := by simpa using h
        by_cases hc : c = '{'
        · subst hc
          by_cases hc2 : c2 = '{'
          · subst hc2
            cases heq : scanTemplateBody rest2 with
            | none =>
              simp [templateSegmentsFuel, heq, segChars, ih ('{' :: rest2) hlen]
            | some pr =>
              obtain ⟨body, rem⟩ := pr
              by_cases hbe : body.isEmpty = true
              · simp [templateSegmentsFuel, heq, hbe, segChars, ih ('{' :: rest2) hlen]
              · have hsc := scanTemplateBody_eq rest2 body rem heq
                have hlenrem : rem.length ≤ fuel := by
                  have hl2 := congrArg List.length hsc
                  simp at hl2
                  simp at hlen
                  omega
                simp [templateSegmentsFuel, heq, hbe, segChars, ih rem hlenrem]
                exact hsc.symm
          · simp [templateSegmentsFuel, hc2, segChars, ih (c2 :: rest2) hlen]
        · simp [templateSegmentsFuel, hc, segChars, ih (c2 :: rest2) hlen]

theorem templateSegments_flatten (cs : List Char) :
    (templateSegments cs).flatMap segChars = cs :=
  templateSegmentsFuel_flatten cs.length cs (Nat.le_refl _)

theorem tokAccum_foldl_ne_nil :
    ∀ (segs : List TemplateSeg) (acc : List String), acc ≠ [] →
      List.foldl tokAccum acc segs ≠ [] := by
  intro segs
  induction segs with
  | nil => intro acc h; simpa using h
  | cons s rest ih =>
    intro acc h
    cases s with
    | lit c => exact ih acc h
    | tok body =>
      apply ih
      simp only [tokAccum]
      split
      · exact h
      · simp

theorem tokAccum_foldl_all_lit :
    ∀ (segs : List TemplateSeg) (acc : List String),
      List.foldl tokAccum acc segs = [] → ∀ s ∈ segs, s.isLit = true := by
  intro segs
  induction segs with
  | nil => intro acc _ s hs; cases hs
  | cons s rest ih =>
    intro acc h q hq
    cases s with
    | lit c =>
      rcases List.mem_cons.mp hq with hql | hqr
      · subst hql; rfl
      · exact ih (tokAccum acc (.lit c)) h q hqr
    | tok body =>
      exfalso
      refine tokAccum_foldl_ne_nil rest (tokAccum acc (.tok body)) ?_ h
      simp only [tokAccum]
      split
      · rename_i hmem
        exact List.ne_nil_of_mem (by simpa using hmem)
      · simp

theorem resolveSegs_all_lit (context : TemplateContext) :
    ∀ (segs : List TemplateSeg), (∀ s ∈ segs, s.isLit = true) →
      resolveSegs context segs = .ok (String.mk (segs.flatMap segChars)) := by
  intro segs
  induction segs with
  | nil => intro _; rfl
  | cons s rest ih =>
    intro h
    cases s with
    | lit c =>
      have hr := ih (fun q hq => h q (by simp [hq]))
      unfold resolveSegs
      rw [hr]
      simp [segChars, strMk_append]
    | tok body =>
      have := h (.tok body) (by simp)
      simp [TemplateSeg.isLit] at this

theorem resolveTemplateString_noTokens (s : String) (context : TemplateContext)
    (h : listTemplateTokens s = []) :
    resolveTemplateStringResult s context = .ok s := by
  unfold listTemplateTokens at h
  have hall := tokAccum_foldl_all_lit (templateSegments s.toList) [] h
  unfold resolveTemplateStringResult
  rw [resolveSegs_all_lit context _ hall, templateSegments_flatten]
  cases s
  rfl

theorem dedupAppend_foldl_ne_nil :
    ∀ (xs : List String) (acc : List String), acc ≠ [] → dedupAppend acc xs ≠ [] := by
  intro xs
  induction xs with
  | nil => intro acc h; simpa [dedupAppend] using h
  | cons x xs ih =>
    intro acc h
    have step : (if acc.contains x then acc else acc ++ [x]) ≠ [] := by
      split
      · exact h
      · simp
    simpa [dedupAppend] using ih _ step

theorem dedupAppend_eq_nil (acc xs : List String) (h : dedupAppend acc xs = []) :
    acc = [] ∧ xs = [] := by
  cases xs with
  | nil => exact ⟨by simpa [dedupAppend] using h, rfl⟩
  | cons x xs =>
    exfalso
    have step : (if acc.contains x then acc else acc ++ [x]) ≠ [] := by
      cases hacc : acc with
      | nil => simp
      | cons a as =>
        split
        · simp
        · simp
    exact dedupAppend_foldl_ne_nil xs _ step (by simpa [dedupAppend] using h)

theorem collectAccum_foldl_ne_nil :
    ∀ (fields : List String) (acc : List String), acc ≠ [] →
      List.foldl collectAccum acc fields ≠ [] := by
  intro fields
  induction fields with
  | nil => intro acc h; simpa using h
  | cons v rest ih =>
    intro acc h
    exact ih _ (dedupAppend_foldl_ne_nil _ _ h)

theorem collect_fold_eq_nil :
    ∀ (fields : List String) (acc : List String),
      List.foldl collectAccum acc fields = [] →
      ∀ v ∈ fields, listTemplateTokens v = [] := by
  intro fields
  induction fields with
  | nil => intro acc _ v hv; cases hv
  | cons v rest ih =>
    intro acc h q hq
    have hacc2 : collectAccum acc v = [] := by
      by_contra hne
      exact collectAccum_foldl_ne_nil rest _ hne h
    rcases List.mem_cons.mp hq with hql | hqr
    · subst hql
      exact (dedupAppend_eq_nil acc (listTemplateTokens q) hacc2).2
    · exact ih (collectAccum acc v) h q hqr

theorem resolveIfTruthy_id (context : TemplateContext) (v : Option String)
    (h : ∀ s, v = some s → s.isEmpty = false → listTemplateTokens s = []) :
    resolveIfTruthy v context = .ok v := by
  cases v with
  | none => rfl
  | some s =>
    simp only [resolveIfTruthy]
    by_cases hs : s.isEmpty = true
    · rw [if_pos hs]
    · rw [if_neg hs]
      rw [resolveTemplateString_noTokens s context (h s rfl (by simpa using hs))]
      rfl

theorem listTemplateTokens_of_isEmpty (s : String) (hs : s.isEmpty = true) :
    listTemplateTokens s = [] := by
  have : s = "" := (String.isEmpty_iff s).mp hs
  subst this
  rfl

theorem resolveIfPresent_id (context : TemplateContext) (v : Option String)
    (h : ∀ s, v = some s → s.isEmpty = false → listTemplateTokens s = []) :
    resolveIfPresent v context = .ok v := by
  cases v with
  | none => rfl
  | some s =>
    have ht : listTemplateTokens s = [] := by
      by_cases hs : s.isEmpty = true
      · exact listTemplateTokens_of_isEmpty s hs
      · exact h s rfl (by simpa using hs)
    simp only [resolveIfPresent]
    rw [resolveTemplateString_noTokens s context ht]
    rfl

theorem resolveStrings_id (context : TemplateContext) :
    ∀ (l : List String), (∀ s ∈ l, s.isEmpty = false → listTemplateTokens s = []) →
      resolveStrings context l = .ok l := by
  intro l
  induction l with
  | nil => intro _; rfl
  | cons s rest ih =>
    intro h
    have ht : listTemplateTokens s = [] := by
      by_cases hs : s.isEmpty = true
      · exact listTemplateTokens_of_isEmpty s hs
      · exact h s (by simp) (by simpa using hs)
    simp only [resolveStrings]
    rw [resolveTemplateString_noTokens s context ht]
    rw [ih (fun q hq hqe => h q (by simp [hq]) hqe)]

theorem resolveGuards_id (context : TemplateContext) :
    ∀ (l : List Guard), (∀ g ∈ l, g.value.isEmpty = false → listTemplateTokens g.value = []) →
      resolveGuards context l = .ok l := by
  intro l
  induction l with
  | nil => intro _; rfl
  | cons g rest ih =>
    intro h
    have ht : listTemplateTokens g.value = [] := by
      by_cases hs : g.value.isEmpty = true
      · exact listTemplateTokens_of_isEmpty _ hs
      · exact h g (by simp) (by simpa using hs)
    simp only [resolveGuards]
    rw [resolveTemplateString_noTokens _ context ht]
    rw [ih (fun q hq hqe => h q (by simp [hq]) hqe)]

theorem resolveEffects_id (context : TemplateContext) :
    ∀ (l : List Effect), (∀ e ∈ l, e.value.isEmpty = false → listTemplateTokens e.value = []) →
      resolveEffects context l = .ok l := by
  intro l
  induction l with
  | nil => intro _; rfl
  | cons e rest ih =>
    intro h
    have ht : listTemplateTokens e.value = [] := by
      by_cases hs : e.value.isEmpty = true
      · exact listTemplateTokens_of_isEmpty _ hs
      · exact h e (by simp) (by simpa using hs)
    simp only [resolveEffects]
    rw [resolveTemplateString_noTokens _ context ht]
    rw [ih (fun q hq hqe => h q (by simp [hq]) hqe)]

/-- C8: if resolving a step's templates once yields a step none of whose
fields contain a further `\x7b\x7b...\x7d\x7d` occurrence (its collected
token set is empty), then resolving that step again with the same context
returns it unchanged. -/
theorem resolve_templates_idempotent (step step1 : RecipeStep) (context : TemplateContext)
    (h1 : resolveRecipeStepTemplatesResult step context = .ok step1)
    (h2 : collectStepTemplateTokens step1 = []) :
    resolveRecipeStepTemplatesResult step1 context = .ok step1 := by
  unfold collectStepTemplateTokens at h2
  have hfields := collect_fold_eq_nil (stepFieldStrings step1) [] h2
  have hurl : resolveIfTruthy step1.url context = .ok step1.url := by
    apply resolveIfTruthy_id
    intro s hs hne
    apply hfields
    simp [stepFieldStrings, collectOptString, hs, hne]
  have hvalue : resolveIfPresent step1.value context = .ok step1.value := by
    apply resolveIfPresent_id
    intro s hs hne
    apply hfields
    simp [stepFieldStrings, collectOptString, hs, hne]
  have hsel : resolveOptList (resolveStrings context) step1.selectorVariants =
      .ok step1.selectorVariants := by
    cases hv : step1.selectorVariants with
    | none => rfl
    | some l =>
      simp only [resolveOptList]
      have hl : resolveStrings context l = .ok l := by
        apply resolveStrings_id
        intro s hsl hne
        apply hfields
        simp [stepFieldStrings, collectTruthy, List.mem_flatMap, hv]
        exact Or.inr (Or.inr (Or.inl ⟨hsl, hne⟩))
      rw [hl]
      rfl
  have hguards : resolveOptList (resolveGuards context) step1.guards = .ok step1.guards := by
    cases hv : step1.guards with
    | none => rfl
    | some l =>
      simp only [resolveOptList]
      have hl : resolveGuards context l = .ok l := by
        apply resolveGuards_id
        intro g hgl hne
        apply hfields
        simp [stepFieldStrings, collectTruthy, List.mem_flatMap, hv]
        exact Or.inr (Or.inr (Or.inr (Or.inl ⟨g, hgl, hne, rfl⟩)))
      rw [hl]
      rfl
  have heffects : resolveOptList (resolveEffects context) step1.effects = .ok step1.effects := by
    cases hv : step1.effects with
    | none => rfl
    | some l =>
      simp only [resolveOptList]
      have hl : resolveEffects context l = .ok l := by
        apply resolveEffects_id
        intro e hel hne
        apply hfields
        simp [stepFieldStrings, collectTruthy, List.mem_flatMap, hv]
        exact Or.inr (Or.inr (Or.inr (Or.inr ⟨e, hel, hne, rfl⟩)))
      rw [hl]
      rfl
  unfold resolveRecipeStepTemplatesResult
  rw [hurl, hvalue, hsel, hguards, heffects]

/-- C8 witness: a concrete step resolves to a token-free step, on which a
second resolution is the identity. -/
theorem resolve_templates_idempotent_witness :
    resolveRecipeStepTemplatesResult
        { id := "s1", title := "t", mode := StepMode.pw, action := StepAction.goto,
          url := some "https://x.example/\x7b\x7btenant\x7d\x7d" }
        { vars := [("tenant", "acme")],
          now := { year := 2026, monthIndex := 1, day := 26, isoString := "I" } } =
      .ok { id := "s1", title := "t", mode := StepMode.pw, action := StepAction.goto,
            url := some "https://x.example/acme" } ∧
    resolveRecipeStepTemplatesResult
        { id := "s1", title := "t", mode := StepMode.pw, action := StepAction.goto,
          url := some "https://x.example/acme" }
        { vars := [("tenant", "acme")],
          now := { year := 2026, monthIndex := 1, day := 26, isoString := "I" } } =
      .ok { id := "s1", title := "t", mode := StepMode.pw, action := StepAction.goto,
            url := some "https://x.example/acme" } :=
  ⟨by decide,
   resolve_templates_idempotent
     { id := "s1", title := "t", mode := StepMode.pw, action := StepAction.goto,
       url := some "https://x.example/\x7b\x7btenant\x7d\x7d" }
     { id := "s1", title := "t", mode := StepMode.pw, action := StepAction.goto,
       url := some "https://x.example/acme" }
     { vars := [("tenant", "acme")],
       now := { year := 2026, monthIndex := 1, day := 26, isoString := "I" } }
     (by decide) (by decide)⟩

/-! ## C1 — what runs after a Phase-2 re-capture -/

def healDemoStep (i : String) : RecipeStep :=
  { id := i, title := i, mode := .pw, action := .click, selectorVariants := some ["#a"] }

def healDemoEnv : HealEnv :=
  { pwHeal := fun step _ =>
      if step.id == "s2" then
        .error (.step_execution_failed "s2" "Click failed for selectors: #a")
      else .ok { currentUrl := some ("https://x.example/" ++ step.id), healed := false },
    httpStep := fun _ _ _ => .ok (some "https://api.example"),
    pwExec := fun step _ => .ok ("https://x.example/" ++ step.id),
    capturedNonempty := fun _ => true,
    capturedSteps := fun _ => [healDemoStep "captured"] }

/-- C1, counterexample: with healing enabled, step `s2` fails, Phase 2
captures one replacement step, the replacement executes — and then the run
STILL executes the remaining original step `s3` (it appears in the trace
after the healed step, and the run ends with `s3`'s URL).  The claim that
every remaining original step is abandoned for the run is false: the loop
in `runPlanStepsWithHeal` has no early return after the Phase-2 block. -/
theorem phase2_tail_not_abandoned :
    (runPlanStepsWithHeal healDemoEnv
        [healDemoStep "s1", healDemoStep "s2", healDemoStep "s3"]).1.trace =
      ["s1", "s2", "s2-healed-1", "s3"]
    ∧ (runPlanStepsWithHeal healDemoEnv
        [healDemoStep "s1", healDemoStep "s2", healDemoStep "s3"]).2 =
      .ok { lastUrl := some "https://x.example/s3", phase1Healed := 0,
            phase2ReRecorded := 1, selectorPatches := [],
            phase2Replacements :=
              [{ replacedFromStepId := "s2",
                 newSteps := [{ healDemoStep "captured" with id := "s2-healed-1" }] }] } := by
  decide

set_option maxHeartbeats 1000000 in
/-- C1 (amended): when Phase 2 fires for a failed browser-mode step, the
captured replacement steps are renumbered, recorded as a replacement, and
executed immediately in order — and afterwards the run RESUMES the
original step list: the remaining original steps after the failed one are
executed (they are not abandoned; the recipe patcher still persists the
replacement for future runs). -/
theorem phase2_executes_replacements_then_resumes_tail
    (env : HealEnv) (s1 s2 s3 hcap : RecipeStep) (e : RunExecuteError) (u1 u3 uh : String)
    (m1 : s1.mode = .pw) (m2 : s2.mode = .pw) (m3 : s3.mode = .pw) (mh : hcap.mode = .pw)
    (h1 : env.pwHeal s1 none =
      .ok { currentUrl := some u1, healed := false, patchSelectors := none })
    (h2 : env.pwHeal s2 (some u1) = .error e)
    (hc : env.capturedNonempty s2 = true)
    (hs : env.capturedSteps s2 = [hcap])
    (hh : env.pwExec { hcap with id := s2.id ++ "-healed-" ++ "1" } (some u1) = .ok uh)
    (h3 : env.pwHeal s3 (some uh) =
      .ok { currentUrl := some u3, healed := false, patchSelectors := none }) :
    (runPlanStepsWithHeal env [s1, s2, s3]).1.trace =
        [s1.id, s2.id, s2.id ++ "-healed-" ++ "1", s3.id]
    ∧ (runPlanStepsWithHeal env [s1, s2, s3]).2 =
        .ok { lastUrl := some u3, phase1Healed := 0, phase2ReRecorded := 1,
              selectorPatches := [],
              phase2Replacements :=
                [{ replacedFromStepId := s2.id,
                   newSteps := [{ hcap with id := s2.id ++ "-healed-" ++ "1" }] }] } := by
  have hre : renumberHealedSteps s2.id [hcap] =
      [{ hcap with id := s2.id ++ "-healed-" ++ "1" }] := by
    with_unfolding_all rfl
  have key : healLoop env true [s1, s2, s3] {} =
      ({ pageUrl := some u3, httpUrl := none, previousStepMode := some .pw,
         phase1Healed := 0, phase2ReRecorded := 1, selectorPatches := [],
         phase2Replacements :=
           [{ replacedFromStepId := s2.id,
              newSteps := [{ hcap with id := s2.id ++ "-healed-" ++ "1" }] }],
         trace := [s1.id, s2.id, s2.id ++ "-healed-" ++ "1", s3.id] }, none) := by
    simp only [mh] at hh
    simp only [healLoop, runReRecorded, m1, m2, m3, h1, h2, h3, hc, hs, hre, hh,
      Bool.not_true, List.isEmpty_cons, List.nil_append, List.cons_append,
      List.append_nil]
    simp [mh, hh, h3]
  have hasPw : ([s1, s2, s3].any (fun s => s.mode == StepMode.pw)) = true := by
    simp [m1]
  constructor
  · simp only [runPlanStepsWithHeal]
    rw [hasPw, key]
  · simp only [runPlanStepsWithHeal]
    rw [hasPw, key]
    rfl

/-- C1 witness: the amended theorem at the concrete demo environment. -/
theorem phase2_executes_replacements_then_resumes_tail_witness :
    (runPlanStepsWithHeal healDemoEnv
        [healDemoStep "a1", healDemoStep "s2", healDemoStep "a3"]).1.trace =
      ["a1", "s2", "s2-healed-1", "a3"] :=
  (phase2_executes_replacements_then_resumes_tail healDemoEnv
    (healDemoStep "a1") (healDemoStep "s2") (healDemoStep "a3") (healDemoStep "captured")
    (.step_execution_failed "s2" "Click failed for selectors: #a")
    "https://x.example/a1" "https://x.example/a3" "https://x.example/s2-healed-1"
    rfl rfl rfl rfl (by decide) (by decide) (by decide) (by decide) (by decide)
    (by decide)).1

end Browrec
